import Mathlib

/-!
Verification of the mxpp bridge state engine (`src/mxpp/main.py`).

The Python class `BridgeBot` is shallowly embedded as a pure state machine:

* `BotState` holds the mutable bridge state (`topic_room_id_map`,
  `special_rooms`, `groupchat_jids`, `jid_nick_map`, feature flags, and the
  Matrix client's room dictionary `rooms`).
* Calls into the two gateway libraries (Matrix client, XMPP client) are
  recorded as explicit `Act`s; the gateway state that matters to the
  claims (room topics, names, joined members) is mirrored inside `BotState`.
  Per the spec's external-interface section, `room.get_joined_members()` is
  modelled as returning the joined member ids of the room.
* Python exceptions are modelled with `Except`: every handler returns the
  list of gateway actions performed before returning or raising, together
  with either the final state or the raised error.
* Matrix room ids are opaque server-generated tokens and are modelled as
  naturals; `create_room` returns a fresh id.
* Python dicts are modelled as association lists with insert-or-update
  semantics (updates keep the original position, new keys append), matching
  dict iteration order.
* Logging calls are treated as no-ops; they perform no gateway action.
* A crucial detail of the source is kept: `create_mapped_room` stores the
  Matrix *room object* in `topic_room_id_map` (line 225), while
  `map_rooms_by_topic` stores the room *id* string (line 253).  `MapVal`
  distinguishes the two; a room object used where an id string is expected
  never matches an id and raises `KeyError` when used as a dict key.
-/

/-- Python exceptions that the embedded code can raise. -/
inductive PyErr where
  | keyError
  | attributeError
  | indexError
  | exceptionRaised
deriving Repr, DecidableEq

/-- Which callback a Matrix room listener was registered with. -/
inductive ListenerKind where
  | control
  | allChat
  | message
deriving Repr, DecidableEq

/-- Gateway calls performed by the bridge (Matrix and XMPP side effects). -/
inductive Act where
  | createRoom (rid : Nat)
  | setRoomTopic (rid : Nat) (topic : String)
  | setRoomName (rid : Nat) (name : String)
  | inviteUser (rid : Nat) (user : String)
  | leaveRoom (rid : Nat)
  | sendText (rid : Nat) (body : String)
  | sendNotice (rid : Nat) (body : String)
  | addListener (rid : Nat) (k : ListenerKind)
  | xmppSendMessage (mto : String) (mbody : String) (mtype : String)
  | xmppSendPresence (pto : Option String) (ptype : Option String)
  | xmppGetRoster
  | joinMUC (jid : String) (nick : String)
  | leaveMUCAct (jid : String) (nick : Option String)
deriving Repr, DecidableEq

/-- A Matrix room as seen through the room-gateway capability. -/
structure MatrixRoom where
  room_id : Nat
  topic : Option String
  name : Option String
  joined : List String
deriving Repr, DecidableEq

/-- A value stored in `topic_room_id_map`: either a room id string
(written by `map_rooms_by_topic`) or a Matrix room object
(written by `create_mapped_room`, line 225 of the source). -/
inductive MapVal where
  | roomId (rid : Nat)
  | roomObj (rid : Nat)
deriving Repr, DecidableEq

/-- The underlying room id of a `MapVal`, whichever kind it is. -/
def MapVal.ridOf : MapVal → Nat
  | .roomId r => r
  | .roomObj r => r

/-- Python `room_id == v` for `v` a map value: a room object never equals
an id string. -/
def mvMatches : MapVal → Nat → Bool
  | .roomId x, rid => x == rid
  | .roomObj _, _ => false

/-- The bridge state: `BridgeBot` attributes plus the mirrored gateway state. -/
structure BotState where
  rooms : List MatrixRoom
  topicRoomIdMap : List (String × MapVal)
  specialRooms : List (String × Nat)
  groupchatJids : List String
  jidNickMap : List (String × String)
  rosterDict : List (String × String)
  disabledJids : List String
  usersToInvite : List String
  groupchatFlag : String
  xmppGroupchatNick : String
  botId : String
  restoreRoomTopic : Bool
  sendMessagesToAllChat : Bool
  disableAllChatRoom : Bool
  sendPresencesToControl : Bool
  groupchatMuteOwnNick : Bool
deriving Repr, DecidableEq

/-- Result of running an embedded procedure: the gateway actions performed
before it returned (or raised), and the outcome. -/
abbrev Out (α : Type) := List Act × Except PyErr α

/-- Python dict lookup (`d[k]` modulo the raising behaviour, `k in d`). -/
def lookupA {β : Type} (l : List (String × β)) (k : String) : Option β :=
  (l.find? (fun kv => kv.1 == k)).map (·.2)

/-- Python dict write `d[k] = v`: replace in place if present, else append
(keys are unique in every dict the source builds, so replacing the first
occurrence is dict assignment). -/
def updateA {β : Type} : List (String × β) → String → β → List (String × β)
  | [], k, v => [(k, v)]
  | kv :: rest, k, v =>
    if kv.1 == k then (k, v) :: rest else kv :: updateA rest k v

/-- Python character-level `s.startswith(p)`. -/
def strStarts (s pre : String) : Bool :=
  List.isPrefixOf pre.data s.data

/-- Python slicing `s[n:]` by code points. -/
def strDrop (s : String) (n : Nat) : String :=
  String.mk (s.data.drop n)

/-- Python `len(s)` in code points. -/
def strLen (s : String) : Nat :=
  s.data.length

/-- Python `c in s` for a single character. -/
def strHasChar (s : String) (c : Char) : Bool :=
  s.data.contains c

/-- Python `s.lower()` (ASCII case folding suffices for the command words). -/
def lowerStr (s : String) : String :=
  String.mk (s.data.map Char.toLower)

/-- Helper for `pySplit`: accumulate the current token in reverse. -/
def splitWsAux : List Char → List Char → List String
  | [], acc => if acc.isEmpty then [] else [String.mk acc.reverse]
  | c :: cs, acc =>
    if c.isWhitespace then
      if acc.isEmpty then splitWsAux cs []
      else String.mk acc.reverse :: splitWsAux cs []
    else splitWsAux cs (c :: acc)

/-- Python `s.split()`: split on whitespace runs, no empty tokens. -/
def pySplit (s : String) : List String :=
  splitWsAux s.data []

/-- The room ids of the Matrix client's room dictionary. -/
def roomIds (s : BotState) : List Nat :=
  s.rooms.map (·.room_id)

/-- Matrix `get_rooms()[rid]` as an `Option`. -/
def getRoom (s : BotState) (rid : Nat) : Option MatrixRoom :=
  s.rooms.find? (fun r => r.room_id == rid)

/-- Apply `room.set_room_topic` to the mirrored room list. -/
def setTopicL (rooms : List MatrixRoom) (rid : Nat) (t : String) :
    List MatrixRoom :=
  rooms.map (fun r => if r.room_id == rid then { r with topic := some t } else r)

/-- Apply `room.set_room_name` to the mirrored room list. -/
def setNameL (rooms : List MatrixRoom) (rid : Nat) (n : String) :
    List MatrixRoom :=
  rooms.map (fun r => if r.room_id == rid then { r with name := some n } else r)

/-- Every id the model has handed out or seen; fresh ids avoid all of them. -/
def usedRoomIds (s : BotState) : List Nat :=
  roomIds s ++ s.specialRooms.map (·.2) ++ s.topicRoomIdMap.map (fun kv => kv.2.ridOf)

/-- Maximum of a list of naturals. -/
def maxL (l : List Nat) : Nat :=
  l.foldr max 0

/-- A fresh id strictly above everything in `used`. -/
def freshFrom (used : List Nat) : Nat :=
  maxL used + 1

/-- The id the Matrix server hands back for `create_room()`. -/
def freshRid (s : BotState) : Nat :=
  freshFrom (usedRoomIds s)

/-- `BridgeBot.get_room_for_jid` (lines 157-164): index `topic_room_id_map`
then the client's room dict.  A room object stored in the map is not a key
of `get_rooms()` and raises `KeyError`. -/
def get_room_for_jid (s : BotState) (jid : String) : Except PyErr Nat :=
  match lookupA s.topicRoomIdMap jid with
  | none => .error .keyError
  | some (.roomObj _) => .error .keyError
  | some (.roomId rid) =>
    if (roomIds s).contains rid then .ok rid else .error .keyError

/-- `BridgeBot.get_unmapped_rooms` (lines 166-176): rooms whose id is neither
a value of `topic_room_id_map` nor a special-room id. -/
def get_unmapped_rooms (s : BotState) : List MatrixRoom :=
  s.rooms.filter (fun r =>
    !(s.topicRoomIdMap.any (fun kv => mvMatches kv.2 r.room_id) ||
      s.specialRooms.any (fun kv => kv.2 == r.room_id)))

/-- `BridgeBot.get_empty_rooms` (lines 178-186): rooms with fewer than two
joined members. -/
def get_empty_rooms (s : BotState) : List MatrixRoom :=
  s.rooms.filter (fun r => r.joined.length < 2)

/-- `BridgeBot.create_mapped_room` (lines 204-234).  Note line 225 stores the
room *object* (`MapVal.roomObj`), and the reuse branch indexes `get_rooms()`
with whatever the map holds. -/
def create_mapped_room (s : BotState) (topic : String) (nameArg : Option String) :
    Out (BotState × Option Nat) :=
  let name := match nameArg with
    | none => topic
    | some n => if n == "" then topic else n
  if s.groupchatJids.contains topic then
    ([], .ok (s, none))
  else
    match lookupA s.topicRoomIdMap topic with
    | some (.roomObj _) => ([], .error .keyError)
    | some (.roomId rid) =>
      match getRoom s rid with
      | none => ([], .error .keyError)
      | some room =>
        if s.restoreRoomTopic && !(room.name == some name) then
          ([Act.setRoomName rid name],
           .ok ({ s with rooms := setNameL s.rooms rid name }, some rid))
        else
          ([], .ok (s, some rid))
    | none =>
      let rid := freshRid s
      let newRoom : MatrixRoom :=
        { room_id := rid, topic := some topic, name := some name,
          joined := [s.botId] }
      ([Act.createRoom rid, Act.setRoomTopic rid topic,
        Act.setRoomName rid name],
       .ok ({ s with
                rooms := s.rooms ++ [newRoom],
                topicRoomIdMap := s.topicRoomIdMap ++ [(topic, MapVal.roomObj rid)] },
            some rid))

/-- Loop body of `BridgeBot.map_rooms_by_topic` (lines 236-255), folded over
the snapshot of unmapped rooms: rooms with a topic containing `@` are
indexed by id and get a `matrix_message` listener. -/
def mapRoomsFold : BotState → List MatrixRoom → BotState × List Act
  | s, [] => (s, [])
  | s, r :: rest =>
    match r.topic with
    | none => mapRoomsFold s rest
    | some t =>
      if strHasChar t '@' then
        let s1 := { s with topicRoomIdMap := updateA s.topicRoomIdMap t (MapVal.roomId r.room_id) }
        let p := mapRoomsFold s1 rest
        (p.1, Act.addListener r.room_id ListenerKind.message :: p.2)
      else
        mapRoomsFold s rest

/-- `BridgeBot.map_rooms_by_topic` (lines 236-255). -/
def map_rooms_by_topic (s : BotState) : BotState × List Act :=
  mapRoomsFold s (get_unmapped_rooms s)

/-- Matrix `room.leave()`: leave and delete from the client's room dict
(`KeyError` if the room was already removed). -/
def roomLeave (s : BotState) (rid : Nat) : Except PyErr BotState :=
  if (roomIds s).contains rid then
    .ok { s with rooms := s.rooms.filter (fun r => !(r.room_id == rid)) }
  else
    .error .keyError

/-- Purge loop of `matrix_control_message` (lines 295-300): for each target
room, read `room.topic.startswith(...)` (an `AttributeError` when the topic
is `None`), leave the MUC for flagged topics, then leave the room. -/
def purgeLoop : BotState → List MatrixRoom → Out BotState
  | s, [] => ([], .ok s)
  | s, r :: rest =>
    match r.topic with
    | none => ([], .error .attributeError)
    | some t =>
      let pre :=
        if strStarts t s.groupchatFlag then
          [Act.leaveMUCAct (strDrop t (strLen s.groupchatFlag)) none]
        else []
      match roomLeave s r.room_id with
      | .error e => (pre, .error e)
      | .ok s1 =>
        let p := purgeLoop s1 rest
        (pre ++ Act.leaveRoom r.room_id :: p.1, p.2)

/-- `BridgeBot.create_groupchat_room` (lines 415-420). When
`create_mapped_room` returned `None` and there are invitees, the invite loop
dereferences `None` (`AttributeError`). -/
def create_groupchat_room (s : BotState) (jid : String) : Out BotState :=
  match create_mapped_room s (s.groupchatFlag ++ jid) none with
  | (as, .error e) => (as, .error e)
  | (as, .ok (s1, roomOpt)) =>
    let s2 :=
      if s1.groupchatJids.contains jid then s1
      else { s1 with groupchatJids := s1.groupchatJids ++ [jid] }
    match s2.usersToInvite with
    | [] => (as, .ok s2)
    | us =>
      match roomOpt with
      | none => (as, .error .attributeError)
      | some rid => (as ++ us.map (Act.inviteUser rid), .ok s2)

/-- A Matrix room-message event: sender, content msgtype, content body. -/
structure MEvent where
  sender : String
  msgtype : String
  body : String
deriving Repr, DecidableEq

/-- `BridgeBot.matrix_control_message` (lines 257-313). -/
def matrix_control_message (s : BotState) (ev : MEvent) : Out BotState :=
  if ev.sender == s.botId then ([], .ok s)
  else if ev.msgtype == "m.text" then
    match pySplit ev.body with
    | [] => ([], .ok s)
    | p0 :: rest =>
      let cmd := lowerStr p0
      if cmd == "refresh" then
        (s.topicRoomIdMap.map (fun kv => Act.xmppSendPresence (some kv.1) (some "probe"))
           ++ [Act.xmppSendPresence none none, Act.xmppGetRoster],
         .ok s)
      else if cmd == "purge" then
        match lookupA s.specialRooms "control" with
        | none => ([], .error .keyError)
        | some crid =>
          let targets := get_unmapped_rooms s ++ get_empty_rooms s
          let p := purgeLoop s targets
          (Act.sendText crid "Purging unused rooms" :: p.1, p.2)
      else
        match rest with
        | [] => ([], .ok s)
        | a1 :: _ =>
          if cmd == "joinmuc" then
            match create_groupchat_room s a1 with
            | (as, .error e) => (as, .error e)
            | (as, .ok s1) =>
              (as ++ [Act.joinMUC a1 s1.xmppGroupchatNick], .ok s1)
          else if cmd == "leavemuc" then
            let lv := Act.leaveMUCAct a1 (some s.xmppGroupchatNick)
            match get_room_for_jid s (s.groupchatFlag ++ a1) with
            | .error e => ([lv], .error e)
            | .ok rid =>
              match roomLeave s rid with
              | .error e => ([lv], .error e)
              | .ok s1 => ([lv, Act.leaveRoom rid], .ok s1)
          else ([], .ok s)
  else ([], .ok s)

/-- `BridgeBot.matrix_all_chat_message` (lines 315-330). -/
def matrix_all_chat_message (s : BotState) (room : MatrixRoom) (ev : MEvent) :
    Out BotState :=
  if ev.sender == s.botId then ([], .ok s)
  else
    ([Act.sendNotice room.room_id "Don\x27t talk in here! Nobody gets your messages."],
     .ok s)

/-- Body of `matrix_message` after the target jid and message type are
derived (lines 359-365): resolve the display name, send to XMPP, mirror to
the all-chat room when enabled. -/
def matrix_message_send (s : BotState) (jid mtype body : String) : Out BotState :=
  match lookupA s.jidNickMap jid with
  | none => ([], .error .keyError)
  | some nm =>
    let sends := [Act.xmppSendMessage jid body mtype]
    if s.sendMessagesToAllChat then
      match lookupA s.specialRooms "all_chat" with
      | none => (sends, .error .keyError)
      | some arid =>
        (sends ++ [Act.sendNotice arid ("To " ++ nm ++ " : " ++ body)], .ok s)
    else (sends, .ok s)

/-- `BridgeBot.matrix_message` (lines 332-365).  The special-room check only
logs; `room.topic.startswith` on a `None` topic raises; the display-name
lookup happens before the XMPP send. -/
def matrix_message (s : BotState) (room : MatrixRoom) (ev : MEvent) : Out BotState :=
  if ev.sender == s.botId then ([], .ok s)
  else if ev.msgtype == "m.text" then
    match room.topic with
    | none => ([], .error .attributeError)
    | some t =>
      if strStarts t s.groupchatFlag then
        matrix_message_send s (strDrop t (strLen s.groupchatFlag)) "groupchat" ev.body
      else
        matrix_message_send s t "chat" ev.body
  else ([], .ok s)

/-- An inbound XMPP message: bare sender, stanza type, body, MUC nickname. -/
structure XMessage where
  fromBare : String
  mtype : String
  body : String
  mucnick : String
deriving Repr, DecidableEq

/-- `BridgeBot.xmpp_message` (lines 367-389).  The `jid_nick_map` lookup at
line 380 runs before the group-chat discard check at line 382. -/
def xmpp_message (s : BotState) (m : XMessage) : Out BotState :=
  if m.mtype == "normal" || m.mtype == "chat" then
    match lookupA s.jidNickMap m.fromBare with
    | none => ([], .error .keyError)
    | some nm =>
      if s.groupchatJids.contains m.fromBare then ([], .ok s)
      else
        match get_room_for_jid s m.fromBare with
        | .error e => ([], .error e)
        | .ok rid =>
          let sends := [Act.sendText rid m.body]
          if s.sendMessagesToAllChat then
            match lookupA s.specialRooms "all_chat" with
            | none => (sends, .error .keyError)
            | some arid =>
              (sends ++ [Act.sendText arid ("From " ++ nm ++ ": " ++ m.body)],
               .ok s)
          else (sends, .ok s)
  else ([], .ok s)

/-- `BridgeBot.xmpp_groupchat_message` (lines 391-413). -/
def xmpp_groupchat_message (s : BotState) (m : XMessage) : Out BotState :=
  if m.mtype == "groupchat" then
    if s.groupchatMuteOwnNick && m.mucnick == s.xmppGroupchatNick then ([], .ok s)
    else
      match get_room_for_jid s (s.groupchatFlag ++ m.fromBare) with
      | .error e => ([], .error e)
      | .ok rid =>
        let sends := [Act.sendText rid (m.mucnick ++ ": " ++ m.body)]
        if s.sendMessagesToAllChat then
          match lookupA s.specialRooms "all_chat" with
          | none => (sends, .error .keyError)
          | some arid =>
            (sends ++ [Act.sendText arid
                ("Room " ++ m.fromBare ++ ", from " ++ m.mucnick ++ ": " ++ m.body)],
             .ok s)
        else (sends, .ok s)
  else ([], .ok s)

/-- `BridgeBot.xmpp_presence_available` (lines 422-443): disabled addresses
are ignored; an address missing from the roster snapshot logs an error and
requests a fresh roster; otherwise a notice goes to the control room. -/
def xmpp_presence_available (s : BotState) (fromBare : String) : Out BotState :=
  if s.disabledJids.contains fromBare then ([], .ok s)
  else
    match lookupA s.jidNickMap fromBare with
    | none => ([Act.xmppGetRoster], .ok s)
    | some nm =>
      if s.sendPresencesToControl then
        match lookupA s.specialRooms "control" with
        | none => ([], .error .keyError)
        | some crid =>
          ([Act.sendNotice crid (nm ++ " available (" ++ fromBare ++ ")")],
           .ok s)
      else ([], .ok s)

/-- `BridgeBot.xmpp_presence_unavailable` (lines 445-461): unlike the
available handler, there is no roster-snapshot check; the name lookup raises
`KeyError` for an unknown address when presence relay is enabled. -/
def xmpp_presence_unavailable (s : BotState) (fromBare : String) : Out BotState :=
  if s.disabledJids.contains fromBare then ([], .ok s)
  else if s.sendPresencesToControl then
    match lookupA s.jidNickMap fromBare with
    | none => ([], .error .keyError)
    | some nm =>
      match lookupA s.specialRooms "control" with
      | none => ([], .error .keyError)
      | some crid =>
        ([Act.sendNotice crid (nm ++ " unavailable (" ++ fromBare ++ ")")],
         .ok s)
  else ([], .ok s)

/-- Room-creation loop of `xmpp_roster_update` (lines 485-493): skip jids
without `@` and disabled jids, update `jid_nick_map`, and call
`create_mapped_room` for each roster entry. -/
def rosterCreateFold : BotState → List (String × String) → Out BotState
  | s, [] => ([], .ok s)
  | s, (jid, nm) :: rest =>
    if !(strHasChar jid '@') then rosterCreateFold s rest
    else if s.disabledJids.contains jid then rosterCreateFold s rest
    else
      let s1 := { s with jidNickMap := updateA s.jidNickMap jid nm }
      match create_mapped_room s1 jid (some nm) with
      | (as, .error e) => (as, .error e)
      | (as, .ok (s2, _)) =>
        let p := rosterCreateFold s2 rest
        (as ++ p.1, p.2)

/-- Invitation loop of `xmpp_roster_update` (lines 497-501): for every room,
invite each configured user who is not already a joined member. -/
def inviteFold (invitees : List String) : List MatrixRoom → List Act
  | [] => []
  | r :: rest =>
    (invitees.filter (fun u => !(r.joined.contains u))).map (Act.inviteUser r.room_id)
      ++ inviteFold invitees rest

/-- `BridgeBot.xmpp_roster_update` (lines 463-503).  The roster is passed as
the XMPP client's roster: a list of roster sources, each an address to
display-name mapping.  More than one source raises; an empty roster hits
`rjids[0]` (`IndexError`). -/
def xmpp_roster_update (roster : List (String × List (String × String)))
    (s : BotState) : Out BotState :=
  match roster with
  | [] => ([], .error .indexError)
  | [(_, entries)] =>
    let s0 := { s with rosterDict := entries }
    let p := map_rooms_by_topic s0
    match rosterCreateFold p.1 entries with
    | (asC, .error e) => (p.2 ++ asC, .error e)
    | (asC, .ok s2) =>
      (p.2 ++ asC ++ inviteFold s2.usersToInvite s2.rooms, .ok s2)
  | _ => ([], .error .exceptionRaised)

/-- The configuration file contents relevant to the bridge core
(`load_config`, lines 123-155).  `Option` fields model keys that may be
absent from the YAML file. -/
structure Config where
  usersToInvite : List String
  groupchatFlag : String
  restoreRoomTopic : Option Bool
  sendPresencesToControl : Bool
  sendMessagesToAllChat : Bool
  disableAllChatRoom : Option Bool
  groupchatMuteOwnNick : Bool
  disabledJids : Option (List String)
  xmppLoginJid : String
  xmppGroupchatNick : String
  botId : String
deriving Repr, DecidableEq

/-- Lines 142-145: the `disable_all_chat_room` key is honoured only when
`send_messages_to_all_chat` is false; otherwise the flag is forced off. -/
def loadDisableAllChat (c : Config) : Bool :=
  if !c.sendMessagesToAllChat then c.disableAllChatRoom.getD false else false

/-- Lines 151-155: the configured disabled addresses, with the
`xmpp_login_jid` sentinel replaced by the login address. -/
def loadDisabledJids (c : Config) : List String :=
  match c.disabledJids with
  | none => []
  | some l =>
    if l.contains "xmpp_login_jid" then
      l.filter (fun j => !(j == "xmpp_login_jid")) ++ [c.xmppLoginJid]
    else l

/-- The `special_rooms` dict after the optional all-chat deletion
(lines 54-57 and 71-76): keys in insertion order, rooms not yet resolved. -/
def initialSpecial (disable : Bool) : List (String × Option Nat) :=
  if disable then [("control", none)]
  else [("control", none), ("all_chat", none)]

/-- The `special_room_names` dict after the optional all-chat deletion. -/
def specialNames (disable : Bool) : List (String × String) :=
  if disable then [("control", "XMPP Control Room")]
  else [("control", "XMPP Control Room"), ("all_chat", "XMPP All Chat")]

/-- Startup room scan (lines 79-89): recover special rooms by topic and
collect group-chat jids from flag-prefixed topics.  A room with no topic hits
`topic.startswith` on `None` (`AttributeError`). -/
def initScan (flag : String) :
    List MatrixRoom → List (String × Option Nat) → List String →
    Except PyErr (List (String × Option Nat) × List String)
  | [], sp, gc => .ok (sp, gc)
  | r :: rest, sp, gc =>
    match r.topic with
    | none => .error .attributeError
    | some t =>
      if (sp.map (·.1)).contains t then
        initScan flag rest (updateA sp t (some r.room_id)) gc
      else if strStarts t flag then
        initScan flag rest sp (gc ++ [strDrop t (strLen flag)])
      else
        initScan flag rest sp gc

/-- Special-room provisioning (lines 91-94 with `setup_special_room`,
lines 188-199): create missing special rooms, then re-apply topic and name.
Returns the updated room list, the resolved special-room dict, and the
gateway actions. -/
def ensureSpecialLoop (names : List (String × String)) (botId : String) :
    List (String × Option Nat) → List MatrixRoom → List (String × Nat) →
    Except PyErr (List MatrixRoom × List (String × Nat) × List Act)
  | [], rooms, acc => .ok (rooms, acc, [])
  | (topic, ro) :: rest, rooms, acc =>
    let step : List MatrixRoom × Nat × List Act :=
      match ro with
      | some rid => (rooms, rid, [])
      | none =>
        let rid := freshFrom (rooms.map (·.room_id) ++ acc.map (·.2))
        (rooms ++ [{ room_id := rid, topic := none, name := none,
                     joined := [botId] }], rid, [Act.createRoom rid])
    match lookupA names topic with
    | none => .error .keyError
    | some nm =>
      let rooms3 := setNameL (setTopicL step.1 step.2.1 topic) step.2.1 nm
      match ensureSpecialLoop names botId rest rooms3 (acc ++ [(topic, step.2.1)]) with
      | .error e => .error e
      | .ok (roomsF, spF, asRest) =>
        .ok (roomsF, spF,
             step.2.2 ++ [Act.setRoomTopic step.2.1 topic, Act.setRoomName step.2.1 nm]
               ++ asRest)

/-- Listener registration, special-room invitations and MUC rejoin
(lines 96-103 and 116-119). -/
def initListenInvite (disable : Bool) (sp : List (String × Nat))
    (invitees : List String) (gc : List String) (nick : String) :
    Except PyErr (List Act) :=
  match lookupA sp "control" with
  | none => .error .keyError
  | some crid =>
    let l1 := [Act.addListener crid ListenerKind.control]
    let l2 :=
      if disable then .ok []
      else
        match lookupA sp "all_chat" with
        | none => (.error .keyError : Except PyErr (List Act))
        | some arid => .ok [Act.addListener arid ListenerKind.allChat]
    match l2 with
    | .error e => .error e
    | .ok ls =>
      .ok (l1 ++ ls
        ++ sp.flatMap (fun kv => invitees.map (Act.inviteUser kv.2))
        ++ gc.map (fun j => Act.joinMUC j nick))

/-- `BridgeBot.__init__` (lines 51-121), minus network connection plumbing:
load the configuration, recover or create the special rooms, register
listeners, invite the configured users, and rejoin known group chats. -/
def bridgeInit (c : Config) (existing : List MatrixRoom) : Out BotState :=
  let disable := loadDisableAllChat c
  let sendAll := if disable then false else c.sendMessagesToAllChat
  match initScan c.groupchatFlag existing (initialSpecial disable) [] with
  | .error e => ([], .error e)
  | .ok (sp, gc) =>
    match ensureSpecialLoop (specialNames disable) c.botId sp existing [] with
    | .error e => ([], .error e)
    | .ok (rooms1, spF, asEnsure) =>
      match initListenInvite disable spF c.usersToInvite gc c.xmppGroupchatNick with
      | .error e => (asEnsure, .error e)
      | .ok asRest =>
        (asEnsure ++ asRest,
         .ok { rooms := rooms1
               topicRoomIdMap := []
               specialRooms := spF
               groupchatJids := gc
               jidNickMap := []
               rosterDict := []
               disabledJids := loadDisabledJids c
               usersToInvite := c.usersToInvite
               groupchatFlag := c.groupchatFlag
               xmppGroupchatNick := c.xmppGroupchatNick
               botId := c.botId
               restoreRoomTopic := c.restoreRoomTopic.getD true
               sendMessagesToAllChat := sendAll
               disableAllChatRoom := disable
               sendPresencesToControl := c.sendPresencesToControl
               groupchatMuteOwnNick := c.groupchatMuteOwnNick })

/-- The projection of a room that ignores its display name. -/
def rkey (r : MatrixRoom) : Nat × Option String × List String :=
  (r.room_id, r.topic, r.joined)

/-- A send action targeting the registered all-chat room of a state. -/
def postsToAllChat (s : BotState) (a : Act) : Prop :=
  ∃ rid b, lookupA s.specialRooms "all_chat" = some rid ∧
    (a = Act.sendText rid b ∨ a = Act.sendNotice rid b)

/-- The topic-to-room index holds a proper room-id entry for `j` that
resolves to an existing room. -/
def validEntry (s : BotState) (j : String) : Prop :=
  ∃ rid, lookupA s.topicRoomIdMap j = some (MapVal.roomId rid) ∧ rid ∈ roomIds s

/-- The index holds a room-object entry for `j` (written by
`create_mapped_room`) that the next `map_rooms_by_topic` run will replace
with the room id: the room exists with topic `j`, is not a special room,
and no id entry anywhere in the index points at it. -/
def objRepairable (s : BotState) (j : String) : Prop :=
  ∃ rid, lookupA s.topicRoomIdMap j = some (MapVal.roomObj rid) ∧
    (∃ r ∈ s.rooms, r.room_id = rid ∧ r.topic = some j) ∧
    rid ∉ s.specialRooms.map (·.2) ∧
    ∀ kv ∈ s.topicRoomIdMap, kv.2 ≠ MapVal.roomId rid

/-- `j` needs no new room on a roster sync: it is a known group chat, or it
is mapped (directly or after the unmapped-room scan repairs its entry). -/
def entryOK (s : BotState) (j : String) : Prop :=
  j ∈ s.groupchatJids ∨ validEntry s j ∨ objRepairable s j

/-- A baseline bridge state: one control room occupied by the bot and one
user, no mapped rooms, mirroring to all-chat off. -/
def baseState : BotState :=
  { rooms := [⟨1, some "control", some "XMPP Control Room", ["@bot:hs", "@user:hs"]⟩],
    topicRoomIdMap := [], specialRooms := [("control", 1)], groupchatJids := [],
    jidNickMap := [], rosterDict := [], disabledJids := [], usersToInvite := [],
    groupchatFlag := "F*", xmppGroupchatNick := "bot", botId := "@bot:hs",
    restoreRoomTopic := true, sendMessagesToAllChat := false,
    disableAllChatRoom := false, sendPresencesToControl := true,
    groupchatMuteOwnNick := true }

/-- The state after `create_mapped_room baseState "alice@x" none`: note the
map holds the room object, not the room id. -/
def c1after : BotState :=
  { baseState with
      rooms := baseState.rooms ++ [⟨2, some "alice@x", some "alice@x", ["@bot:hs"]⟩],
      topicRoomIdMap := [("alice@x", MapVal.roomObj 2)] }

/-- Purge scenario state: the control room, a mapped room with topic `bob@x`
and two joined members, and a room with no topic (two members as well). -/
def c2state : BotState :=
  { baseState with
      rooms := baseState.rooms ++
        [⟨2, some "bob@x", some "Bob", ["@bot:hs", "@user:hs"]⟩,
         ⟨3, none, none, ["@bot:hs", "@user:hs"]⟩],
      topicRoomIdMap := [("bob@x", MapVal.roomId 2)],
      jidNickMap := [("bob@x", "Bob")] }

/-- State with a mapped group-chat room whose index entry is a proper room
id, and self-echo muting disabled. -/
def c4state : BotState :=
  { baseState with
      rooms := baseState.rooms ++
        [⟨2, some "F*team@conf.x", some "F*team@conf.x", ["@bot:hs", "@user:hs"]⟩],
      topicRoomIdMap := [("F*team@conf.x", MapVal.roomId 2)],
      groupchatJids := ["team@conf.x"],
      groupchatMuteOwnNick := false }

/-- State in which `team@conf.x` is a known group-chat address but has no
roster entry. -/
def c6state : BotState :=
  { baseState with groupchatJids := ["team@conf.x"] }

/-- `c6state` with a roster entry for the group-chat address. -/
def c6stateNamed : BotState :=
  { c6state with jidNickMap := [("team@conf.x", "Team")] }

/-- The state after `joinmuc team@conf.x` from `baseState`: the group-chat
room exists but its index entry is the room object. -/
def c7mid : BotState :=
  { baseState with
      rooms := baseState.rooms ++
        [⟨2, some "F*team@conf.x", some "F*team@conf.x", ["@bot:hs"]⟩],
      topicRoomIdMap := [("F*team@conf.x", MapVal.roomObj 2)],
      groupchatJids := ["team@conf.x"] }

/-- State whose topic-to-room index contains one group-chat entry (keyed,
as always, by the flag-prefixed topic). -/
def c8state : BotState :=
  { baseState with topicRoomIdMap := [("F*team@conf.x", MapVal.roomId 2)] }

/-- A configuration that disables the all-chat room while mirroring to it is
enabled. -/
def c9badCfg : Config :=
  { usersToInvite := ["@user:hs"], groupchatFlag := "F*",
    restoreRoomTopic := none, sendPresencesToControl := true,
    sendMessagesToAllChat := true, disableAllChatRoom := some true,
    groupchatMuteOwnNick := true, disabledJids := none, xmppLoginJid := "me@x",
    xmppGroupchatNick := "bot", botId := "@bot:hs" }

/-- A configuration that disables the all-chat room with mirroring off. -/
def c9goodCfg : Config :=
  { usersToInvite := ["@user:hs"], groupchatFlag := "F*",
    restoreRoomTopic := none, sendPresencesToControl := true,
    sendMessagesToAllChat := false, disableAllChatRoom := some true,
    groupchatMuteOwnNick := true, disabledJids := none, xmppLoginJid := "me@x",
    xmppGroupchatNick := "bot", botId := "@bot:hs" }

/-- Initial state and roster for the roster-sync idempotence witness. -/
def c3roster : List (String × List (String × String)) :=
  [("acct@x", [("alice@x", "Alice")])]

/-- Claim C1.  The spec says a second `create_mapped_room` call with the
same address returns the room created by the first call.  The code instead
stores the room object (not its id) in `topic_room_id_map` at line 225, so
the reuse branch indexes `get_rooms()` with a room object and raises
`KeyError` on the second call. -/
theorem claim1_create_mapped_room_second_call_raises :
    create_mapped_room baseState "alice@x" none =
      ([Act.createRoom 2, Act.setRoomTopic 2 "alice@x", Act.setRoomName 2 "alice@x"],
       .ok (c1after, some 2)) ∧
    create_mapped_room c1after "alice@x" none = ([], .error PyErr.keyError) :=
  ⟨rfl, rfl⟩

/-- Claim C2.  In the spec scenario (a mapped room `bob@x` with two joined
members and a topicless room), `purge` is supposed to leave exactly the
topicless room and finish without crashing.  The code reads
`room.topic.startswith(...)` on the topicless room and raises
`AttributeError` after announcing the purge, leaving no room at all. -/
theorem claim2_purge_crashes_on_topicless_room :
    get_unmapped_rooms c2state = [⟨3, none, none, ["@bot:hs", "@user:hs"]⟩] ∧
    get_empty_rooms c2state = [] ∧
    matrix_control_message c2state ⟨"@user:hs", "m.text", "purge"⟩ =
      ([Act.sendText 1 "Purging unused rooms"], .error PyErr.attributeError) :=
  ⟨rfl, rfl, rfl⟩

/-- Claim C7.  After `joinmuc team@conf.x` creates the group-chat room in
the same session, `leavemuc team@conf.x` leaves the MUC on the XMPP side
but then raises `KeyError` in `get_room_for_jid` (the index holds the room
object stored by `create_mapped_room`), so the mapped room is never left —
contradicting the spec's `leavemuc` description. -/
theorem claim7_leavemuc_after_joinmuc_raises :
    matrix_control_message baseState ⟨"@user:hs", "m.text", "joinmuc team@conf.x"⟩ =
      ([Act.createRoom 2, Act.setRoomTopic 2 "F*team@conf.x",
        Act.setRoomName 2 "F*team@conf.x", Act.joinMUC "team@conf.x" "bot"],
       .ok c7mid) ∧
    matrix_control_message c7mid ⟨"@user:hs", "m.text", "leavemuc team@conf.x"⟩ =
      ([Act.leaveMUCAct "team@conf.x" (some "bot")], .error PyErr.keyError) :=
  ⟨rfl, rfl⟩

/-- Claim C4, counterexample.  A group-chat message carrying the bridge's
own configured nickname is relayed (sent to the mapped room) when
`groupchat_mute_own_nick` is false, so self-messages are not unconditionally
suppressed in the contact-to-room direction. -/
theorem claim4_counterexample_self_group_message_relayed :
    (⟨"team@conf.x", "groupchat", "hi", "bot"⟩ : XMessage).mucnick
        = c4state.xmppGroupchatNick ∧
    xmpp_groupchat_message c4state ⟨"team@conf.x", "groupchat", "hi", "bot"⟩ =
      ([Act.sendText 2 "bot: hi"], .ok c4state) :=
  ⟨rfl, rfl⟩

/-- Claim C4, amended: room-network events from the bot's own Matrix id are
always dropped by all three Matrix handlers, and a group-chat message under
the bridge's own nickname is dropped provided self-echo muting
(`groupchat_mute_own_nick`) is enabled. -/
theorem claim4_self_messages_not_relayed_amended
    (s : BotState) (room : MatrixRoom) (ev : MEvent) (m : XMessage) :
    (ev.sender = s.botId →
      matrix_message s room ev = ([], .ok s) ∧
      matrix_control_message s ev = ([], .ok s) ∧
      matrix_all_chat_message s room ev = ([], .ok s)) ∧
    (m.mtype = "groupchat" → s.groupchatMuteOwnNick = true →
      m.mucnick = s.xmppGroupchatNick →
      xmpp_groupchat_message s m = ([], .ok s)) := by
  constructor
  · intro h
    refine ⟨?_, ?_, ?_⟩ <;>
      simp [matrix_message, matrix_control_message, matrix_all_chat_message, h]
  · intro h1 h2 h3
    simp [xmpp_groupchat_message, h1, h2, h3]

/-- Claim C4, witness for the amended theorem at concrete inputs. -/
theorem claim4_self_messages_not_relayed_amended_witness :
    (matrix_message baseState ⟨1, none, none, []⟩ ⟨"@bot:hs", "m.text", "x"⟩
        = ([], .ok baseState) ∧
      matrix_control_message baseState ⟨"@bot:hs", "m.text", "x"⟩ = ([], .ok baseState) ∧
      matrix_all_chat_message baseState ⟨1, none, none, []⟩ ⟨"@bot:hs", "m.text", "x"⟩
        = ([], .ok baseState)) ∧
    xmpp_groupchat_message baseState ⟨"team@conf.x", "groupchat", "hi", "bot"⟩
      = ([], .ok baseState) :=
  ⟨(claim4_self_messages_not_relayed_amended baseState ⟨1, none, none, []⟩
      ⟨"@bot:hs", "m.text", "x"⟩ ⟨"team@conf.x", "groupchat", "hi", "bot"⟩).1 rfl,
   (claim4_self_messages_not_relayed_amended baseState ⟨1, none, none, []⟩
      ⟨"@bot:hs", "m.text", "x"⟩ ⟨"team@conf.x", "groupchat", "hi", "bot"⟩).2 rfl rfl rfl⟩

/-- Claim C5, counterexample.  An unavailable-presence for an address that
is neither disabled nor in the roster snapshot raises `KeyError` (the
unavailable handler has no roster check), instead of logging and requesting
a fresh roster. -/
theorem claim5_counterexample_unavailable_presence_raises :
    lookupA baseState.jidNickMap "ghost@x" = none ∧
    baseState.disabledJids.contains "ghost@x" = false ∧
    xmpp_presence_unavailable baseState "ghost@x" = ([], .error PyErr.keyError) :=
  ⟨rfl, rfl, rfl⟩

/-- Claim C5, amended: the property holds for presences of type available —
an address that is not disabled and missing from the roster snapshot leads
to a fresh roster request, no control-room notice, no state change and no
exception.  (The unavailable handler instead raises `KeyError`.) -/
theorem claim5_available_presence_unknown_jid_recovers
    (s : BotState) (jid : String)
    (h1 : jid ∉ s.disabledJids)
    (h2 : lookupA s.jidNickMap jid = none) :
    xmpp_presence_available s jid = ([Act.xmppGetRoster], .ok s) := by
  simp [xmpp_presence_available, h1, h2]

/-- Claim C5, witness for the amended theorem. -/
theorem claim5_available_presence_unknown_jid_recovers_witness :
    xmpp_presence_available baseState "ghost@x" = ([Act.xmppGetRoster], .ok baseState) :=
  claim5_available_presence_unknown_jid_recovers baseState "ghost@x" (by decide) rfl

/-- Claim C6, counterexample.  A chat-type message from a known group-chat
address raises `KeyError` when the address has no roster entry: the
`jid_nick_map` lookup at line 380 runs before the discard check at
line 382, so the handler does raise. -/
theorem claim6_counterexample_groupchat_sender_without_name_raises :
    c6state.groupchatJids.contains "team@conf.x" = true ∧
    xmpp_message c6state ⟨"team@conf.x", "chat", "hi", ""⟩ = ([], .error PyErr.keyError) :=
  ⟨rfl, rfl⟩

/-- Claim C6, amended: provided the sending address has a roster-snapshot
entry, a normal/chat message from a known group-chat address is discarded —
nothing is posted to any room, nothing is mirrored, and no exception is
raised. -/
theorem claim6_groupchat_sender_discarded_amended
    (s : BotState) (m : XMessage) (nm : String)
    (h0 : m.mtype = "normal" ∨ m.mtype = "chat")
    (h1 : lookupA s.jidNickMap m.fromBare = some nm)
    (h2 : m.fromBare ∈ s.groupchatJids) :
    xmpp_message s m = ([], .ok s) := by
  rcases h0 with h0 | h0 <;> simp [xmpp_message, h0, h1, h2]

/-- Claim C6, witness for the amended theorem. -/
theorem claim6_groupchat_sender_discarded_amended_witness :
    xmpp_message c6stateNamed ⟨"team@conf.x", "chat", "hi", ""⟩ = ([], .ok c6stateNamed) :=
  claim6_groupchat_sender_discarded_amended c6stateNamed
    ⟨"team@conf.x", "chat", "hi", ""⟩ "Team" (Or.inr rfl) rfl (by decide)

/-- Claim C8, counterexample.  `refresh` probes the keys of
`topic_room_id_map` as they are: a group-chat entry is probed under its
flag-prefixed topic (`F*team@conf.x`), not under the bare group-chat
address. -/
theorem claim8_counterexample_refresh_probes_flagged_topic :
    strStarts "F*team@conf.x" c8state.groupchatFlag = true ∧
    matrix_control_message c8state ⟨"@user:hs", "m.text", "refresh"⟩ =
      ([Act.xmppSendPresence (some "F*team@conf.x") (some "probe"),
        Act.xmppSendPresence none none, Act.xmppGetRoster], .ok c8state) :=
  ⟨rfl, rfl⟩

/-- Claim C8, amended: `refresh` sends a presence probe to every key of the
topic-to-room index in order — group-chat entries are probed under their
flag-prefixed topic — then sends the bridge's own presence and requests a
fresh roster. -/
theorem claim8_refresh_probes_map_keys
    (s : BotState) (ev : MEvent) (w : String) (ts : List String)
    (h0 : (ev.sender == s.botId) = false)
    (h1 : ev.msgtype = "m.text")
    (h2 : pySplit ev.body = w :: ts)
    (h3 : lowerStr w = "refresh") :
    matrix_control_message s ev =
      (s.topicRoomIdMap.map (fun kv => Act.xmppSendPresence (some kv.1) (some "probe"))
        ++ [Act.xmppSendPresence none none, Act.xmppGetRoster], .ok s) := by
  simp [matrix_control_message, h0, h1, h2, h3]

/-- Claim C8, witness for the amended theorem. -/
theorem claim8_refresh_probes_map_keys_witness :
    matrix_control_message c8state ⟨"@user:hs", "m.text", "refresh"⟩ =
      (c8state.topicRoomIdMap.map (fun kv => Act.xmppSendPresence (some kv.1) (some "probe"))
        ++ [Act.xmppSendPresence none none, Act.xmppGetRoster], .ok c8state) :=
  claim8_refresh_probes_map_keys c8state ⟨"@user:hs", "m.text", "refresh"⟩
    "refresh" [] rfl rfl rfl rfl

/-- Claim C10: a room-network message whose content msgtype is not `m.text`
is ignored by both the control-room handler and the mapped-room handler —
no command runs, nothing is sent or mirrored, the state is unchanged and no
exception is raised. -/
theorem claim10_non_text_events_ignored
    (s : BotState) (room : MatrixRoom) (ev : MEvent)
    (h : ev.msgtype ≠ "m.text") :
    matrix_control_message s ev = ([], .ok s) ∧
    matrix_message s room ev = ([], .ok s) := by
  have hb : (ev.msgtype == "m.text") = false := by
    simpa using h
  constructor <;> simp [matrix_control_message, matrix_message, hb]

/-- Claim C10, witness at a concrete non-text event. -/
theorem claim10_non_text_events_ignored_witness :
    matrix_control_message baseState ⟨"@user:hs", "m.image", "pic"⟩ = ([], .ok baseState) ∧
    matrix_message baseState ⟨1, none, none, []⟩ ⟨"@user:hs", "m.image", "pic"⟩
      = ([], .ok baseState) :=
  claim10_non_text_events_ignored baseState ⟨1, none, none, []⟩
    ⟨"@user:hs", "m.image", "pic"⟩ (by decide)

/-! ### Association-list lemmas -/

theorem lookupA_nil {β : Type} (k : String) : lookupA ([] : List (String × β)) k = none := rfl

theorem lookupA_cons {β : Type} (kv : String × β) (l : List (String × β)) (k : String) :
    lookupA (kv :: l) k = if kv.1 == k then some kv.2 else lookupA l k := by
  by_cases h : kv.1 = k <;> simp [lookupA, List.find?_cons, h]

theorem lookupA_updateA_self {β : Type} (l : List (String × β)) (k : String) (v : β) :
    lookupA (updateA l k v) k = some v := by
  induction l with
  | nil => simp [updateA, lookupA_cons]
  | cons kv rest ih =>
    by_cases h : kv.1 = k
    · simp [updateA, h, lookupA_cons]
    · simp [updateA, h, lookupA_cons, ih]

theorem lookupA_updateA_ne {β : Type} (l : List (String × β)) (k k' : String) (v : β)
    (h : k' ≠ k) : lookupA (updateA l k v) k' = lookupA l k' := by
  have hb : (k == k') = false := beq_eq_false_iff_ne.mpr (Ne.symm h)
  induction l with
  | nil => simp [updateA, lookupA_cons, hb]
  | cons kv rest ih =>
    by_cases hk : kv.1 = k
    · rw [show updateA (kv :: rest) k v = (k, v) :: rest by simp [updateA, hk]]
      rw [lookupA_cons, lookupA_cons, hb]
      have hb2 : (kv.1 == k') = false := by
        rw [hk]; exact hb
      rw [hb2]
      simp
    · rw [show updateA (kv :: rest) k v = kv :: updateA rest k v by simp [updateA, hk]]
      rw [lookupA_cons, lookupA_cons, ih]

theorem mem_updateA {β : Type} (l : List (String × β)) (k : String) (v : β)
    (kv' : String × β) (h : kv' ∈ updateA l k v) : kv' = (k, v) ∨ kv' ∈ l := by
  induction l with
  | nil => simpa [updateA] using h
  | cons kv rest ih =>
    by_cases hk : kv.1 = k
    · rw [show updateA (kv :: rest) k v = (k, v) :: rest by simp [updateA, hk]] at h
      rcases List.mem_cons.mp h with h1 | h1
      · exact Or.inl h1
      · exact Or.inr (List.mem_cons_of_mem _ h1)
    · rw [show updateA (kv :: rest) k v = kv :: updateA rest k v by
        simp [updateA, hk]] at h
      rcases List.mem_cons.mp h with h1 | h1
      · exact Or.inr (h1 ▸ List.mem_cons_self _ _)
      · rcases ih h1 with h2 | h2
        · exact Or.inl h2
        · exact Or.inr (List.mem_cons_of_mem _ h2)

theorem updateA_keys_of_contains {β : Type} (l : List (String × β)) (k : String) (v : β)
    (h : (l.map (·.1)).contains k = true) :
    (updateA l k v).map (·.1) = l.map (·.1) := by
  induction l with
  | nil => simp at h
  | cons kv rest ih =>
    by_cases hk : kv.1 = k
    · simp [updateA, hk]
    · have h1 : (rest.map (·.1)).contains k = true := by
        rw [List.map_cons, List.contains_cons] at h
        rcases Bool.or_eq_true_iff.mp h with h2 | h2
        · exact absurd (beq_iff_eq.mp h2).symm hk
        · exact h2
      simp [updateA, hk, ih h1]

theorem lookupA_append_left {β : Type} (l l2 : List (String × β)) (k : String) (v : β)
    (h : lookupA l k = some v) : lookupA (l ++ l2) k = some v := by
  induction l with
  | nil => simp [lookupA] at h
  | cons kv rest ih =>
    rw [List.cons_append, lookupA_cons]
    rw [lookupA_cons] at h
    by_cases hk : kv.1 = k
    · simpa [hk] using (by simpa [hk] using h)
    · have hb : (kv.1 == k) = false := beq_eq_false_iff_ne.mpr hk
      rw [hb] at h ⊢
      simp only [Bool.false_eq_true, if_false] at h ⊢
      exact ih h

theorem lookupA_append_right {β : Type} (l l2 : List (String × β)) (k : String)
    (h : lookupA l k = none) : lookupA (l ++ l2) k = lookupA l2 k := by
  induction l with
  | nil => simp
  | cons kv rest ih =>
    rw [List.cons_append, lookupA_cons]
    rw [lookupA_cons] at h
    by_cases hk : kv.1 = k
    · simp [hk] at h
    · have hb : (kv.1 == k) = false := beq_eq_false_iff_ne.mpr hk
      rw [hb] at h ⊢
      simp only [Bool.false_eq_true, if_false] at h ⊢
      exact ih h

theorem lookupA_eq_none_iff {β : Type} (l : List (String × β)) (k : String) :
    lookupA l k = none ↔ ∀ kv ∈ l, kv.1 ≠ k := by
  induction l with
  | nil => simp [lookupA]
  | cons kv rest ih =>
    by_cases hk : kv.1 = k <;> simp [lookupA_cons, hk, ih]

theorem lookupA_mem {β : Type} (l : List (String × β)) (k : String) (v : β)
    (h : lookupA l k = some v) : (k, v) ∈ l := by
  induction l with
  | nil => simp [lookupA] at h
  | cons kv rest ih =>
    by_cases hk : kv.1 = k
    · have h2 : kv.2 = v := by simpa [lookupA_cons, hk] using h
      subst hk
      exact List.mem_cons.mpr (Or.inl (by rw [← h2]))
    · exact List.mem_cons_of_mem _ (ih (by simpa [lookupA_cons, hk] using h))

theorem maxL_ge (l : List Nat) (x : Nat) (h : x ∈ l) : x ≤ maxL l := by
  induction l with
  | nil => simp at h
  | cons a rest ih =>
    rcases List.mem_cons.mp h with h1 | h1
    · subst h1
      exact le_max_left _ _
    · exact le_trans (ih h1) (le_max_right _ _)

theorem freshFrom_not_mem (used : List Nat) : freshFrom used ∉ used := by
  intro h
  have h2 := maxL_ge used _ h
  unfold freshFrom at h2
  omega

theorem cm_ok_shape (s : BotState) (topic : String) (n : Option String)
    (as : List Act) (s' : BotState) (o : Option Nat)
    (h : create_mapped_room s topic n = (as, .ok (s', o))) :
    ∃ R M, s' = { s with rooms := R, topicRoomIdMap := M } := by
  by_cases hgc : s.groupchatJids.contains topic
  · simp only [create_mapped_room, hgc, if_true] at h
    simp only [Prod.mk.injEq, Except.ok.injEq] at h
    obtain ⟨h1, h2, h3⟩ := h
    subst h2
    exact ⟨_, _, rfl⟩
  · rw [Bool.not_eq_true] at hgc
    cases hl : lookupA s.topicRoomIdMap topic with
    | none =>
      simp only [create_mapped_room, hgc, hl, Bool.false_eq_true, if_false] at h
      simp only [Prod.mk.injEq, Except.ok.injEq] at h
      obtain ⟨h1, h2, h3⟩ := h
      subst h2
      exact ⟨_, _, rfl⟩
    | some v =>
      cases v with
      | roomObj rid =>
        simp only [create_mapped_room, hgc, hl, Bool.false_eq_true, if_false,
          Prod.mk.injEq, reduceCtorEq, and_false] at h
      | roomId rid =>
        cases hr : getRoom s rid with
        | none =>
          simp only [create_mapped_room, hgc, hl, hr, Bool.false_eq_true, if_false,
            Prod.mk.injEq, reduceCtorEq, and_false] at h
        | some room =>
          simp only [create_mapped_room, hgc, hl, hr, Bool.false_eq_true, if_false] at h
          split at h <;>
            (simp only [Prod.mk.injEq, Except.ok.injEq] at h
             obtain ⟨h1, h2, h3⟩ := h
             subst h2
             exact ⟨_, _, rfl⟩)

theorem setNameL_rkey (rooms : List MatrixRoom) (rid : Nat) (n : String) :
    (setNameL rooms rid n).map rkey = rooms.map rkey := by
  unfold setNameL
  rw [List.map_map]
  apply List.map_congr_left
  intro r _
  by_cases h : r.room_id = rid <;> simp [h, rkey]

theorem getRoom_of_mem_roomIds (s : BotState) (rid : Nat) (h : rid ∈ roomIds s) :
    ∃ room, getRoom s rid = some room ∧ room ∈ s.rooms ∧ room.room_id = rid := by
  unfold roomIds at h
  obtain ⟨r, hr, hid⟩ := List.mem_map.mp h
  have hsome : (s.rooms.find? (fun r => r.room_id == rid)).isSome := by
    rw [List.find?_isSome]
    exact ⟨r, hr, by simp [hid]⟩
  obtain ⟨room, hroom⟩ := Option.isSome_iff_exists.mp hsome
  refine ⟨room, hroom, List.mem_of_find?_eq_some hroom, ?_⟩
  have := List.find?_some hroom
  simpa using this

theorem cm_gc (s : BotState) (topic : String) (n : Option String)
    (hgc : topic ∈ s.groupchatJids) :
    create_mapped_room s topic n = ([], .ok (s, none)) := by
  simp [create_mapped_room, hgc]

theorem cm_reuse (s : BotState) (topic : String) (n : Option String) (rid : Nat)
    (hgc0 : topic ∉ s.groupchatJids)
    (hv : lookupA s.topicRoomIdMap topic = some (MapVal.roomId rid))
    (hr : rid ∈ roomIds s) :
    ∃ as R, create_mapped_room s topic n = (as, .ok ({ s with rooms := R }, some rid)) ∧
      R.map rkey = s.rooms.map rkey ∧
      ∀ a ∈ as, ∃ r nm, a = Act.setRoomName r nm := by
  have hgc : s.groupchatJids.contains topic = false := by simpa using hgc0
  obtain ⟨room, hroom, -, -⟩ := getRoom_of_mem_roomIds s rid hr
  simp only [create_mapped_room, hgc, Bool.false_eq_true, if_false, hv, hroom]
  split
  · exact ⟨_, _, rfl, setNameL_rkey _ _ _, by simp⟩
  · exact ⟨[], s.rooms, rfl, rfl, by simp⟩

theorem cm_create (s : BotState) (topic : String) (n : Option String)
    (hgc : topic ∉ s.groupchatJids)
    (hl : lookupA s.topicRoomIdMap topic = none) :
    ∃ nm, create_mapped_room s topic n =
      ([Act.createRoom (freshRid s), Act.setRoomTopic (freshRid s) topic,
        Act.setRoomName (freshRid s) nm],
       .ok ({ s with
               rooms := s.rooms ++ [⟨freshRid s, some topic, some nm, [s.botId]⟩],
               topicRoomIdMap := s.topicRoomIdMap ++ [(topic, MapVal.roomObj (freshRid s))] },
            some (freshRid s))) := by
  rcases n with _ | nv
  · exact ⟨topic, by simp [create_mapped_room, hgc, hl]⟩
  · by_cases hnv : nv == ""
    · exact ⟨topic, by simp [create_mapped_room, hgc, hl, hnv]⟩
    · exact ⟨nv, by simp [create_mapped_room, hgc, hl, hnv]⟩

theorem cm_obj (s : BotState) (topic : String) (n : Option String) (rid : Nat)
    (hgc : topic ∉ s.groupchatJids)
    (hv : lookupA s.topicRoomIdMap topic = some (MapVal.roomObj rid)) :
    create_mapped_room s topic n = ([], .error PyErr.keyError) := by
  have hgcb : s.groupchatJids.contains topic = false := by simpa using hgc
  simp only [create_mapped_room, hgcb, Bool.false_eq_true, if_false, hv]

theorem cm_noroom (s : BotState) (topic : String) (n : Option String) (rid : Nat)
    (hgc : topic ∉ s.groupchatJids)
    (hv : lookupA s.topicRoomIdMap topic = some (MapVal.roomId rid))
    (hr : rid ∉ roomIds s) :
    create_mapped_room s topic n = ([], .error PyErr.keyError) := by
  have hgcb : s.groupchatJids.contains topic = false := by simpa using hgc
  have hnone : getRoom s rid = none := by
    unfold getRoom
    rw [List.find?_eq_none]
    intro r hrm
    simp only [beq_iff_eq]
    intro hid
    exact hr (hid ▸ List.mem_map_of_mem (·.room_id) hrm)
  simp only [create_mapped_room, hgcb, Bool.false_eq_true, if_false, hv, hnone]

theorem mem_of_rkey_map_eq (l1 l2 : List MatrixRoom) (h : l1.map rkey = l2.map rkey)
    (r : MatrixRoom) (hr : r ∈ l1) :
    ∃ r2 ∈ l2, r2.room_id = r.room_id ∧ r2.topic = r.topic ∧ r2.joined = r.joined := by
  have hm : rkey r ∈ l2.map rkey := h ▸ List.mem_map_of_mem rkey hr
  obtain ⟨r2, hr2, hk⟩ := List.mem_map.mp hm
  unfold rkey at hk
  simp only [Prod.mk.injEq] at hk
  exact ⟨r2, hr2, hk.1, hk.2.1, hk.2.2⟩

theorem roomIds_eq_of_rkey (l1 l2 : List MatrixRoom) (h : l1.map rkey = l2.map rkey) :
    l1.map (·.room_id) = l2.map (·.room_id) := by
  have h2 := congrArg (List.map (fun p : Nat × Option String × List String => p.1)) h
  simpa [List.map_map, rkey, Function.comp] using h2

theorem freshRid_not_special (s : BotState) : freshRid s ∉ s.specialRooms.map (·.2) := by
  intro h
  exact freshFrom_not_mem (usedRoomIds s) (by
    unfold usedRoomIds
    exact List.mem_append.mpr (Or.inl (List.mem_append.mpr (Or.inr h))))

theorem freshRid_not_mapRid (s : BotState) (kv : String × MapVal)
    (h : kv ∈ s.topicRoomIdMap) : kv.2 ≠ MapVal.roomId (freshRid s) := by
  intro hk
  apply freshFrom_not_mem (usedRoomIds s)
  unfold usedRoomIds
  refine List.mem_append.mpr (Or.inr ?_)
  have h2 : kv.2.ridOf = freshRid s := by rw [hk]; rfl
  have h3 : kv.2.ridOf ∈ List.map (fun kv : String × MapVal => kv.2.ridOf) s.topicRoomIdMap :=
    List.mem_map_of_mem (fun kv : String × MapVal => kv.2.ridOf) h
  rw [h2] at h3
  exact h3

theorem freshRid_not_roomId (s : BotState) : freshRid s ∉ roomIds s := by
  intro h
  exact freshFrom_not_mem (usedRoomIds s) (by
    unfold usedRoomIds
    exact List.mem_append.mpr (Or.inl (List.mem_append.mpr (Or.inl h))))

theorem entryOK_step (s : BotState) (topic : String) (n : Option String)
    (as : List Act) (s2 : BotState) (o : Option Nat)
    (h : create_mapped_room s topic n = (as, .ok (s2, o))) :
    (∀ j, entryOK s j → entryOK s2 j) ∧ entryOK s2 topic := by
  by_cases hgc : topic ∈ s.groupchatJids
  · rw [cm_gc s topic n hgc] at h
    simp only [Prod.mk.injEq, Except.ok.injEq] at h
    obtain ⟨-, h2, -⟩ := h
    subst h2
    exact ⟨fun j hj => hj, Or.inl hgc⟩
  · rcases hl : lookupA s.topicRoomIdMap topic with - | v
    · -- create branch
      obtain ⟨nm, heq⟩ := cm_create s topic n hgc hl
      rw [heq] at h
      simp only [Prod.mk.injEq, Except.ok.injEq] at h
      obtain ⟨-, h2, -⟩ := h
      subst h2
      constructor
      · intro j hj
        rcases hj with hj | hj | hj
        · exact Or.inl hj
        · obtain ⟨rid, hv, hrm⟩ := hj
          refine Or.inr (Or.inl ⟨rid, lookupA_append_left _ _ _ _ hv, ?_⟩)
          simp only [roomIds, List.map_append]
          exact List.mem_append.mpr (Or.inl hrm)
        · obtain ⟨rid, hv, ⟨r, hr, hid, ht⟩, hsp, hmap⟩ := hj
          refine Or.inr (Or.inr ⟨rid, lookupA_append_left _ _ _ _ hv,
            ⟨r, List.mem_append.mpr (Or.inl hr), hid, ht⟩, hsp, ?_⟩)
          intro kv hkv
          rcases List.mem_append.mp hkv with hkv | hkv
          · exact hmap kv hkv
          · have : kv = (topic, MapVal.roomObj (freshRid s)) := by simpa using hkv
            rw [this]
            intro hcon
            exact MapVal.noConfusion hcon
      · refine Or.inr (Or.inr ⟨freshRid s, ?_, ?_, freshRid_not_special s, ?_⟩)
        · rw [lookupA_append_right _ _ _ hl]
          simp [lookupA_cons]
        · exact ⟨_, List.mem_append.mpr (Or.inr (List.mem_singleton.mpr rfl)), rfl, rfl⟩
        · intro kv hkv
          rcases List.mem_append.mp hkv with hkv | hkv
          · exact freshRid_not_mapRid s kv hkv
          · have : kv = (topic, MapVal.roomObj (freshRid s)) := by simpa using hkv
            rw [this]
            intro hcon
            exact MapVal.noConfusion hcon
    · cases v with
      | roomObj rid =>
        rw [cm_obj s topic n rid hgc hl] at h
        simp at h
      | roomId rid =>
        by_cases hr : rid ∈ roomIds s
        · obtain ⟨as1, R, heq, hrk, -⟩ := cm_reuse s topic n rid hgc hl hr
          rw [heq] at h
          simp only [Prod.mk.injEq, Except.ok.injEq] at h
          obtain ⟨-, h2, -⟩ := h
          subst h2
          have hids : R.map (·.room_id) = s.rooms.map (·.room_id) :=
            roomIds_eq_of_rkey _ _ hrk
          constructor
          · intro j hj
            rcases hj with hj | hj | hj
            · exact Or.inl hj
            · obtain ⟨rid2, hv2, hrm2⟩ := hj
              exact Or.inr (Or.inl ⟨rid2, hv2, by
                simpa [roomIds, hids] using hrm2⟩)
            · obtain ⟨rid2, hv2, ⟨r, hrm, hid, ht⟩, hsp, hmap⟩ := hj
              obtain ⟨r2, hr2, hid2, ht2, -⟩ := mem_of_rkey_map_eq s.rooms R hrk.symm r hrm
              exact Or.inr (Or.inr ⟨rid2, hv2,
                ⟨r2, hr2, by rw [hid2, hid], by rw [ht2, ht]⟩, hsp, hmap⟩)
          · exact Or.inr (Or.inl ⟨rid, hl, by simpa [roomIds, hids] using hr⟩)
        · rw [cm_noroom s topic n rid hgc hl hr] at h
          simp at h

theorem rosterCreateFold_post (entries : List (String × String)) :
    ∀ (s : BotState) (as : List Act) (s' : BotState),
      rosterCreateFold s entries = (as, .ok s') →
      s'.groupchatJids = s.groupchatJids ∧
      s'.disabledJids = s.disabledJids ∧
      s'.specialRooms = s.specialRooms ∧
      s'.usersToInvite = s.usersToInvite ∧
      (∀ j, entryOK s j → entryOK s' j) ∧
      (∀ p ∈ entries, strHasChar p.1 '@' = true → p.1 ∉ s.disabledJids → entryOK s' p.1) := by
  induction entries with
  | nil =>
    intro s as s' h
    simp only [rosterCreateFold, Prod.mk.injEq, Except.ok.injEq] at h
    obtain ⟨-, h2⟩ := h
    subst h2
    exact ⟨rfl, rfl, rfl, rfl, fun j hj => hj, fun p hp => absurd hp (List.not_mem_nil p)⟩
  | cons hd rest ih =>
    intro s as s' h
    obtain ⟨jid, nm⟩ := hd
    by_cases hat : strHasChar jid '@'
    · by_cases hdis : jid ∈ s.disabledJids
      · have hdisb : s.disabledJids.contains jid = true := by simpa using hdis
        simp only [rosterCreateFold, hat, Bool.not_true, Bool.false_eq_true, if_false,
          hdisb, if_true] at h
        obtain ⟨hg, hd2, hs2, hu2, hpres, hpost⟩ := ih s as s' h
        refine ⟨hg, hd2, hs2, hu2, hpres, ?_⟩
        intro p hp hp1 hp2
        rcases List.mem_cons.mp hp with hp | hp
        · rw [hp] at hp2
          exact absurd hdis hp2
        · exact hpost p hp hp1 hp2
      · have hdisb : s.disabledJids.contains jid = false := by simpa using hdis
        set s1 : BotState := { s with jidNickMap := updateA s.jidNickMap jid nm } with hs1
        have hstep : rosterCreateFold s ((jid, nm) :: rest) =
            (match create_mapped_room s1 jid (some nm) with
             | (as1, .error e) => (as1, .error e)
             | (as1, .ok (s2, _)) =>
               let p := rosterCreateFold s2 rest
               (as1 ++ p.1, p.2)) := by
          simp only [rosterCreateFold, hat, Bool.not_true, Bool.false_eq_true, if_false,
            hdisb, if_true]
        rw [hstep] at h
        cases hcm : create_mapped_room s1 jid (some nm) with
        | mk as1 res1 =>
          cases res1 with
          | error e =>
            rw [hcm] at h
            simp at h
          | ok pr =>
            obtain ⟨s2, o⟩ := pr
            rw [hcm] at h
            dsimp only at h
            cases hfold : rosterCreateFold s2 rest with
            | mk A2 res2 =>
              rw [hfold] at h
              simp only [Prod.mk.injEq] at h
              obtain ⟨-, h2⟩ := h
              cases res2 with
              | error e => simp at h2
              | ok sf =>
                have hsf : sf = s' := by simpa using h2
                subst hsf
                obtain ⟨hg, hd2, hs2, hu2, hpres, hpost⟩ := ih s2 A2 sf hfold
                obtain ⟨hpres1, hok1⟩ := entryOK_step s1 jid (some nm) as1 s2 o hcm
                obtain ⟨R, M, hshape⟩ := cm_ok_shape s1 jid (some nm) as1 s2 o hcm
                have hg1 : s2.groupchatJids = s.groupchatJids := by rw [hshape]
                have hd1 : s2.disabledJids = s.disabledJids := by rw [hshape]
                have hsp1 : s2.specialRooms = s.specialRooms := by rw [hshape]
                have hu1 : s2.usersToInvite = s.usersToInvite := by rw [hshape]
                have hpresS : ∀ j, entryOK s j → entryOK sf j := by
                  intro j hj
                  exact hpres j (hpres1 j hj)
                refine ⟨hg.trans hg1, hd2.trans hd1, hs2.trans hsp1, hu2.trans hu1,
                  hpresS, ?_⟩
                intro p hp hp1 hp2
                rcases List.mem_cons.mp hp with hp | hp
                · rw [hp]
                  exact hpres _ hok1
                · exact hpost p hp hp1 (by rw [hd1]; exact hp2)
    · simp only [rosterCreateFold, hat, Bool.not_false, if_true] at h
      obtain ⟨hg, hd2, hs2, hu2, hpres, hpost⟩ := ih s as s' h
      refine ⟨hg, hd2, hs2, hu2, hpres, ?_⟩
      intro p hp hp1 hp2
      rcases List.mem_cons.mp hp with hp | hp
      · rw [hp] at hp1
        simp only at hp1
        exact absurd hp1 (by simpa using hat)
      · exact hpost p hp hp1 hp2

theorem rosterCreateFold_reuse (entries : List (String × String)) :
    ∀ (s : BotState),
      (∀ p ∈ entries, strHasChar p.1 '@' = true → p.1 ∉ s.disabledJids →
        (p.1 ∈ s.groupchatJids ∨ validEntry s p.1)) →
      ∃ as s', rosterCreateFold s entries = (as, .ok s') ∧
        s'.rooms.map rkey = s.rooms.map rkey ∧
        s'.topicRoomIdMap = s.topicRoomIdMap ∧
        s'.groupchatJids = s.groupchatJids ∧
        s'.specialRooms = s.specialRooms ∧
        s'.usersToInvite = s.usersToInvite ∧
        s'.disabledJids = s.disabledJids ∧
        (∀ a ∈ as, ∃ r nm2, a = Act.setRoomName r nm2) := by
  induction entries with
  | nil =>
    intro s _
    exact ⟨[], s, rfl, rfl, rfl, rfl, rfl, rfl, rfl, by simp⟩
  | cons hd rest ih =>
    intro s hgood
    obtain ⟨jid, nm⟩ := hd
    by_cases hat : strHasChar jid '@'
    · by_cases hdis : jid ∈ s.disabledJids
      · have hdisb : s.disabledJids.contains jid = true := by simpa using hdis
        obtain ⟨as, s', hfold, hconc⟩ :=
          ih s (fun p hp => hgood p (List.mem_cons_of_mem _ hp))
        refine ⟨as, s', ?_, hconc⟩
        simp only [rosterCreateFold, hat, Bool.not_true, Bool.false_eq_true, if_false,
          hdisb, if_true]
        exact hfold
      · have hdisb : s.disabledJids.contains jid = false := by simpa using hdis
        set s1 : BotState := { s with jidNickMap := updateA s.jidNickMap jid nm } with hs1
        have hstep : rosterCreateFold s ((jid, nm) :: rest) =
            (match create_mapped_room s1 jid (some nm) with
             | (as1, .error e) => (as1, .error e)
             | (as1, .ok (s2, _)) =>
               let p := rosterCreateFold s2 rest
               (as1 ++ p.1, p.2)) := by
          simp only [rosterCreateFold, hat, Bool.not_true, Bool.false_eq_true, if_false,
            hdisb, if_true]
        by_cases hgcj : jid ∈ s.groupchatJids
        · -- group-chat jid: create_mapped_room is a no-op on the state
          have hgc1 : jid ∈ s1.groupchatJids := hgcj
          obtain ⟨as, s', hfold, hrk, hmap, hg, hsp, hu, hd, hacts⟩ :=
            ih s1 (fun p hp h1 h2 => hgood p (List.mem_cons_of_mem _ hp) h1 h2)
          refine ⟨as, s', ?_, hrk, hmap, hg, hsp, hu, hd, hacts⟩
          rw [hstep, cm_gc s1 jid (some nm) hgc1]
          dsimp only
          rw [hfold]
          simp
        · -- mapped jid: the reuse branch runs, no room is created
          have hval : validEntry s jid :=
            (hgood (jid, nm) (List.mem_cons_self _ _) hat hdis).resolve_left hgcj
          obtain ⟨rid, hv, hr⟩ := hval
          have hv1 : lookupA s1.topicRoomIdMap jid = some (MapVal.roomId rid) := hv
          have hr1 : rid ∈ roomIds s1 := hr
          have hgc1 : jid ∉ s1.groupchatJids := hgcj
          obtain ⟨as1, R, heq, hrk1, hacts1⟩ := cm_reuse s1 jid (some nm) rid hgc1 hv1 hr1
          have hids : R.map (·.room_id) = s.rooms.map (·.room_id) :=
            roomIds_eq_of_rkey _ _ hrk1
          have hgood2 : ∀ p ∈ rest, strHasChar p.1 '@' = true →
              p.1 ∉ ({ s1 with rooms := R } : BotState).disabledJids →
              (p.1 ∈ ({ s1 with rooms := R } : BotState).groupchatJids ∨
                validEntry { s1 with rooms := R } p.1) := by
            intro p hp h1 h2
            rcases hgood p (List.mem_cons_of_mem _ hp) h1 h2 with hg | hval2
            · exact Or.inl hg
            · obtain ⟨rid2, hv2, hr2⟩ := hval2
              refine Or.inr ⟨rid2, hv2, ?_⟩
              simpa [roomIds, hids] using hr2
          obtain ⟨as2, s', hfold, hrk2, hmap2, hg2, hsp2, hu2, hd2, hacts2⟩ :=
            ih _ hgood2
          refine ⟨as1 ++ as2, s', ?_, ?_, hmap2, hg2, hsp2, hu2, hd2, ?_⟩
          · rw [hstep, heq]
            dsimp only
            rw [hfold]
          · rw [hrk2]
            exact hrk1
          · intro a ha
            rcases List.mem_append.mp ha with ha | ha
            · exact hacts1 a ha
            · exact hacts2 a ha
    · obtain ⟨as, s', hfold, hconc⟩ :=
        ih s (fun p hp => hgood p (List.mem_cons_of_mem _ hp))
      refine ⟨as, s', ?_, hconc⟩
      simp only [rosterCreateFold, hat, Bool.not_false, if_true]
      exact hfold

theorem mapRoomsFold_shape (rs : List MatrixRoom) :
    ∀ s : BotState, ∃ M, (mapRoomsFold s rs).1 = { s with topicRoomIdMap := M } := by
  induction rs with
  | nil => exact fun s => ⟨s.topicRoomIdMap, rfl⟩
  | cons r rest ih =>
    intro s
    cases ht : r.topic with
    | none => simpa [mapRoomsFold, ht] using ih s
    | some t =>
      by_cases hc : strHasChar t '@'
      · obtain ⟨M, hM⟩ :=
          ih { s with topicRoomIdMap := updateA s.topicRoomIdMap t (MapVal.roomId r.room_id) }
        exact ⟨M, by simp [mapRoomsFold, ht, hc, hM]⟩
      · simpa [mapRoomsFold, ht, hc] using ih s

theorem mapRoomsFold_acts (rs : List MatrixRoom) :
    ∀ s : BotState, ∀ a ∈ (mapRoomsFold s rs).2,
      ∃ rid, a = Act.addListener rid ListenerKind.message := by
  induction rs with
  | nil => intro s a ha; simp [mapRoomsFold] at ha
  | cons r rest ih =>
    intro s a ha
    cases ht : r.topic with
    | none =>
      rw [mapRoomsFold, ht] at ha
      exact ih s a ha
    | some t =>
      by_cases hc : strHasChar t '@'
      · rw [mapRoomsFold, ht] at ha
        simp only [hc, if_true, List.mem_cons] at ha
        rcases ha with ha | ha
        · exact ⟨r.room_id, ha⟩
        · exact ih _ a ha
      · rw [mapRoomsFold, ht] at ha
        simp only [hc, Bool.false_eq_true, if_false] at ha
        exact ih s a ha

theorem mapRoomsFold_validEntry (rs : List MatrixRoom) :
    ∀ (s : BotState) (j : String),
      (∀ r ∈ rs, r.room_id ∈ roomIds s) →
      validEntry s j → validEntry (mapRoomsFold s rs).1 j := by
  induction rs with
  | nil => intro s j _ hv; simpa [mapRoomsFold] using hv
  | cons r rest ih =>
    intro s j hids hv
    cases ht : r.topic with
    | none =>
      rw [mapRoomsFold, ht]
      exact ih s j (fun r' hr' => hids r' (List.mem_cons_of_mem _ hr')) hv
    | some t =>
      by_cases hc : strHasChar t '@'
      · rw [mapRoomsFold, ht]
        simp only [hc, if_true]
        set s1 : BotState :=
          { s with topicRoomIdMap := updateA s.topicRoomIdMap t (MapVal.roomId r.room_id) }
        have hids1 : ∀ r' ∈ rest, r'.room_id ∈ roomIds s1 := fun r' hr' =>
          hids r' (List.mem_cons_of_mem _ hr')
        have hv1 : validEntry s1 j := by
          obtain ⟨rid, hvv, hrm⟩ := hv
          by_cases hjt : j = t
          · subst hjt
            exact ⟨r.room_id, lookupA_updateA_self _ _ _,
              hids r (List.mem_cons_self _ _)⟩
          · exact ⟨rid, by rw [show lookupA s1.topicRoomIdMap j =
              lookupA s.topicRoomIdMap j from lookupA_updateA_ne _ _ _ _ hjt]; exact hvv, hrm⟩
        exact ih s1 j hids1 hv1
      · rw [mapRoomsFold, ht]
        simp only [hc, Bool.false_eq_true, if_false]
        exact ih s j (fun r' hr' => hids r' (List.mem_cons_of_mem _ hr')) hv

theorem mapRoomsFold_establish (rs : List MatrixRoom) :
    ∀ (s : BotState) (j : String) (r : MatrixRoom),
      r ∈ rs → (∀ r' ∈ rs, r'.room_id ∈ roomIds s) →
      r.topic = some j → strHasChar j '@' = true →
      validEntry (mapRoomsFold s rs).1 j := by
  induction rs with
  | nil => intro s j r hr; simp at hr
  | cons r0 rest ih =>
    intro s j r hr hids ht hc
    rcases List.mem_cons.mp hr with hr0 | hrr
    · subst hr0
      rw [mapRoomsFold, ht]
      simp only [hc, if_true]
      set s1 : BotState :=
        { s with topicRoomIdMap := updateA s.topicRoomIdMap j (MapVal.roomId r.room_id) }
      have hv1 : validEntry s1 j :=
        ⟨r.room_id, lookupA_updateA_self _ _ _, hids r (List.mem_cons_self _ _)⟩
      exact mapRoomsFold_validEntry rest s1 j
        (fun r' hr' => hids r' (List.mem_cons_of_mem _ hr')) hv1
    · cases ht0 : r0.topic with
      | none =>
        rw [mapRoomsFold, ht0]
        exact ih s j r hrr (fun r' hr' => hids r' (List.mem_cons_of_mem _ hr')) ht hc
      | some t0 =>
        by_cases hc0 : strHasChar t0 '@'
        · rw [mapRoomsFold, ht0]
          simp only [hc0, if_true]
          set s1 : BotState :=
            { s with topicRoomIdMap := updateA s.topicRoomIdMap t0 (MapVal.roomId r0.room_id) }
          exact ih s1 j r hrr (fun r' hr' => hids r' (List.mem_cons_of_mem _ hr')) ht hc
        · rw [mapRoomsFold, ht0]
          simp only [hc0, Bool.false_eq_true, if_false]
          exact ih s j r hrr (fun r' hr' => hids r' (List.mem_cons_of_mem _ hr')) ht hc

theorem unmapped_sub_rooms (s : BotState) (r : MatrixRoom)
    (h : r ∈ get_unmapped_rooms s) : r ∈ s.rooms :=
  (List.mem_filter.mp h).1

theorem objRepairable_mem_unmapped (s : BotState) (j : String)
    (h : objRepairable s j) :
    ∃ r ∈ get_unmapped_rooms s, r.topic = some j := by
  obtain ⟨rid, hv, ⟨r, hr, hid, ht⟩, hsp, hmap⟩ := h
  refine ⟨r, List.mem_filter.mpr ⟨hr, ?_⟩, ht⟩
  simp only [Bool.not_eq_eq_eq_not, Bool.not_true, Bool.or_eq_false_iff]
  constructor
  · rw [List.any_eq_false]
    intro kv hkv
    cases hkv2 : kv.2 with
    | roomObj x => simp [mvMatches]
    | roomId x =>
      simp only [mvMatches]
      have hx : x ≠ r.room_id := by
        intro hx
        apply hmap kv hkv
        rw [hkv2, hx, hid]
      simp [beq_eq_false_iff_ne.mpr hx]
  · rw [List.any_eq_false]
    intro kv hkv
    have hx : kv.2 ≠ r.room_id := by
      intro hx
      apply hsp
      rw [← hid, ← hx]
      exact List.mem_map_of_mem (·.2) hkv
    simp [beq_eq_false_iff_ne.mpr hx]

theorem map_rooms_by_topic_shape (s : BotState) :
    ∃ M, (map_rooms_by_topic s).1 = { s with topicRoomIdMap := M } :=
  mapRoomsFold_shape (get_unmapped_rooms s) s

theorem map_rooms_by_topic_goodEntry (s : BotState) (j : String)
    (hc : strHasChar j '@' = true) (h : entryOK s j) :
    j ∈ (map_rooms_by_topic s).1.groupchatJids ∨
      validEntry (map_rooms_by_topic s).1 j := by
  have hids : ∀ r ∈ get_unmapped_rooms s, r.room_id ∈ roomIds s := fun r hr =>
    List.mem_map_of_mem (·.room_id) (unmapped_sub_rooms s r hr)
  rcases h with hgc | hval | hobj
  · obtain ⟨M, hM⟩ := map_rooms_by_topic_shape s
    left
    rw [hM]
    exact hgc
  · exact Or.inr (mapRoomsFold_validEntry _ s j hids hval)
  · obtain ⟨r, hr, ht⟩ := objRepairable_mem_unmapped s j hobj
    exact Or.inr (mapRoomsFold_establish _ s j r hr hids ht hc)

theorem inviteFold_spec (invitees : List String) (rs : List MatrixRoom) :
    ∀ a ∈ inviteFold invitees rs,
      ∃ r ∈ rs, ∃ u, u ∈ invitees ∧ u ∉ r.joined ∧ a = Act.inviteUser r.room_id u := by
  induction rs with
  | nil => intro a ha; simp [inviteFold] at ha
  | cons r rest ih =>
    intro a ha
    rw [inviteFold] at ha
    rcases List.mem_append.mp ha with ha | ha
    · obtain ⟨u, hu, hau⟩ := List.mem_map.mp ha
      obtain ⟨hu1, hu2⟩ := List.mem_filter.mp hu
      refine ⟨r, List.mem_cons_self _ _, u, hu1, ?_, hau.symm⟩
      intro hj
      simp [hj] at hu2
    · obtain ⟨r2, hr2, hrest⟩ := ih a ha
      exact ⟨r2, List.mem_cons_of_mem _ hr2, hrest⟩

/-- Claim C3: roster sync is idempotent.  If a roster update from state
`s0` succeeds, running it again with the same roster from the resulting
state succeeds, creates no room (no `createRoom` action and an unchanged
room list up to display names), and sends an invitation only to a
configured user who is not a joined member of the target room; if every
configured invitee is already joined everywhere, no invitation is sent at
all. -/
theorem claim3_roster_sync_idempotent
    (s0 s1 : BotState) (A1 : List Act) (rj : String)
    (entries : List (String × String))
    (h1 : xmpp_roster_update [(rj, entries)] s0 = (A1, .ok s1)) :
    ∃ A2 s2, xmpp_roster_update [(rj, entries)] s1 = (A2, .ok s2) ∧
      s2.rooms.map rkey = s1.rooms.map rkey ∧
      (∀ a ∈ A2, ∀ rid, a ≠ Act.createRoom rid) ∧
      (∀ rid u, Act.inviteUser rid u ∈ A2 →
        ∃ r ∈ s1.rooms, r.room_id = rid ∧ u ∉ r.joined) ∧
      ((∀ r ∈ s1.rooms, ∀ u ∈ s1.usersToInvite, u ∈ r.joined) →
        ∀ rid u, Act.inviteUser rid u ∉ A2) := by
  -- run 1: extract the create-fold result
  simp only [xmpp_roster_update] at h1
  cases hcf1 : rosterCreateFold
      (map_rooms_by_topic { s0 with rosterDict := entries }).1 entries with
  | mk asC res1 =>
    rw [hcf1] at h1
    cases res1 with
    | error e => simp at h1
    | ok s2 =>
      dsimp only at h1
      simp only [Prod.mk.injEq, Except.ok.injEq] at h1
      obtain ⟨-, hs⟩ := h1
      subst hs
      -- run-1 postconditions
      obtain ⟨M1, hM1⟩ := map_rooms_by_topic_shape { s0 with rosterDict := entries }
      obtain ⟨hg1, hd1, hsp1, hu1, -, hpost⟩ :=
        rosterCreateFold_post entries _ asC _ hcf1
      have hdis1 : s2.disabledJids = s0.disabledJids := by rw [hd1, hM1]
      have hinv1 : s2.usersToInvite = s0.usersToInvite := by rw [hu1, hM1]
      -- run 2
      obtain ⟨M2, hM2⟩ := map_rooms_by_topic_shape { s2 with rosterDict := entries }
      have hgood : ∀ p ∈ entries, strHasChar p.1 '@' = true →
          p.1 ∉ (map_rooms_by_topic { s2 with rosterDict := entries }).1.disabledJids →
          (p.1 ∈ (map_rooms_by_topic { s2 with rosterDict := entries }).1.groupchatJids ∨
            validEntry (map_rooms_by_topic { s2 with rosterDict := entries }).1 p.1) := by
        intro p hp hat hd
        have hdm : (map_rooms_by_topic { s2 with rosterDict := entries }).1.disabledJids
            = s2.disabledJids := by rw [hM2]
        rw [hdm] at hd
        have hOK : entryOK s2 p.1 := hpost p hp hat (by
          rw [hM1]
          show p.1 ∉ s0.disabledJids
          rw [← hdis1]
          exact hd)
        have hOK2 : entryOK { s2 with rosterDict := entries } p.1 := hOK
        exact map_rooms_by_topic_goodEntry _ p.1 hat hOK2
      obtain ⟨asC2, s2', hcf2, hrk2, hmap2, hg2, hsp2, hu2, hd2, hacts2⟩ :=
        rosterCreateFold_reuse entries _ hgood
      have hrun2 : xmpp_roster_update [(rj, entries)] s2 =
          ((map_rooms_by_topic { s2 with rosterDict := entries }).2 ++ asC2
            ++ inviteFold s2'.usersToInvite s2'.rooms, .ok s2') := by
        simp only [xmpp_roster_update]
        rw [hcf2]
      have hrooms : s2'.rooms.map rkey = s2.rooms.map rkey := by
        rw [hrk2, hM2]
      have hinv2 : s2'.usersToInvite = s2.usersToInvite := by
        rw [hu2, hM2]
      refine ⟨_, s2', hrun2, hrooms, ?_, ?_, ?_⟩
      · -- no room creation
        intro a ha rid
        rcases List.mem_append.mp ha with ha | ha
        · rcases List.mem_append.mp ha with ha | ha
          · obtain ⟨rid2, hrid2⟩ := mapRoomsFold_acts _ _ a ha
            rw [hrid2]
            intro hcon
            exact Act.noConfusion hcon
          · obtain ⟨r2, nm2, hr2⟩ := hacts2 a ha
            rw [hr2]
            intro hcon
            exact Act.noConfusion hcon
        · obtain ⟨r2, -, u2, -, -, hr2⟩ := inviteFold_spec _ _ a ha
          rw [hr2]
          intro hcon
          exact Act.noConfusion hcon
      · -- every invitation goes to a non-member
        intro rid u hmem
        rcases List.mem_append.mp hmem with hmem | hmem
        · rcases List.mem_append.mp hmem with hmem | hmem
          · obtain ⟨rid2, hrid2⟩ := mapRoomsFold_acts _ _ _ hmem
            exact absurd hrid2 (fun hcon => Act.noConfusion hcon)
          · obtain ⟨r2, nm2, hr2⟩ := hacts2 _ hmem
            exact absurd hr2 (fun hcon => Act.noConfusion hcon)
        · obtain ⟨r, hr, u2, hu2m, hju2, heq⟩ := inviteFold_spec _ _ _ hmem
          injection heq with hid huu
          obtain ⟨r1, hr1, hid1, -, hj1⟩ := mem_of_rkey_map_eq s2'.rooms s2.rooms hrooms r hr
          refine ⟨r1, hr1, by rw [hid1, ← hid], ?_⟩
          rw [hj1, huu]
          exact hju2
      · -- if every invitee is already joined everywhere, no invite at all
        intro hall rid u hmem
        rcases List.mem_append.mp hmem with hmem | hmem
        · rcases List.mem_append.mp hmem with hmem | hmem
          · obtain ⟨rid2, hrid2⟩ := mapRoomsFold_acts _ _ _ hmem
            exact Act.noConfusion hrid2
          · obtain ⟨r2, nm2, hr2⟩ := hacts2 _ hmem
            exact Act.noConfusion hr2
        · obtain ⟨r, hr, u2, hu2m, hju2, heq⟩ := inviteFold_spec _ _ _ hmem
          obtain ⟨r1, hr1, hid1, -, hj1⟩ := mem_of_rkey_map_eq s2'.rooms s2.rooms hrooms r hr
          have hu2inv : u2 ∈ s2.usersToInvite := by
            rw [← hinv2]
            exact hu2m
          have := hall r1 hr1 u2 hu2inv
          rw [hj1] at this
          exact hju2 this

/-- Claim C3, witness: a concrete roster update run twice from the baseline
state, with the conclusions of the idempotence theorem instantiated. -/
theorem claim3_roster_sync_idempotent_witness :
    ∃ A1 s1, xmpp_roster_update c3roster baseState = (A1, Except.ok s1) ∧
      ∃ A2 s2, xmpp_roster_update c3roster s1 = (A2, Except.ok s2) ∧
        s2.rooms.map rkey = s1.rooms.map rkey ∧
        (∀ a ∈ A2, ∀ rid, a ≠ Act.createRoom rid) ∧
        (∀ rid u, Act.inviteUser rid u ∈ A2 →
          ∃ r ∈ s1.rooms, r.room_id = rid ∧ u ∉ r.joined) ∧
        ((∀ r ∈ s1.rooms, ∀ u ∈ s1.usersToInvite, u ∈ r.joined) →
          ∀ rid u, Act.inviteUser rid u ∉ A2) := by
  refine ⟨_, _, rfl, ?_⟩
  exact claim3_roster_sync_idempotent baseState _ _ "acct@x" [("alice@x", "Alice")] rfl

theorem matrix_message_send_state (s : BotState) (jid mtype body : String)
    (as : List Act) (s' : BotState)
    (h : matrix_message_send s jid mtype body = (as, .ok s')) : s' = s := by
  unfold matrix_message_send at h
  repeat' split at h
  all_goals simp only [Prod.mk.injEq, Except.ok.injEq, reduceCtorEq, and_false,
    false_and] at h
  all_goals exact h.2.symm

theorem matrix_message_state (s : BotState) (room : MatrixRoom) (ev : MEvent)
    (as : List Act) (s' : BotState)
    (h : matrix_message s room ev = (as, .ok s')) : s' = s := by
  unfold matrix_message at h
  repeat' split at h
  all_goals first
    | exact matrix_message_send_state _ _ _ _ _ _ h
    | simp only [Prod.mk.injEq, Except.ok.injEq, reduceCtorEq, and_false,
        false_and] at h
  all_goals exact h.2.symm

theorem xmpp_message_state (s : BotState) (m : XMessage)
    (as : List Act) (s' : BotState)
    (h : xmpp_message s m = (as, .ok s')) : s' = s := by
  unfold xmpp_message at h
  repeat' split at h
  all_goals simp only [Prod.mk.injEq, Except.ok.injEq, reduceCtorEq, and_false,
    false_and] at h
  all_goals exact h.2.symm

theorem xmpp_groupchat_message_state (s : BotState) (m : XMessage)
    (as : List Act) (s' : BotState)
    (h : xmpp_groupchat_message s m = (as, .ok s')) : s' = s := by
  unfold xmpp_groupchat_message at h
  repeat' split at h
  all_goals simp only [Prod.mk.injEq, Except.ok.injEq, reduceCtorEq, and_false,
    false_and] at h
  all_goals exact h.2.symm

theorem xmpp_presence_available_state (s : BotState) (j : String)
    (as : List Act) (s' : BotState)
    (h : xmpp_presence_available s j = (as, .ok s')) : s' = s := by
  unfold xmpp_presence_available at h
  repeat' split at h
  all_goals simp only [Prod.mk.injEq, Except.ok.injEq, reduceCtorEq, and_false,
    false_and] at h
  all_goals exact h.2.symm

theorem xmpp_presence_unavailable_state (s : BotState) (j : String)
    (as : List Act) (s' : BotState)
    (h : xmpp_presence_unavailable s j = (as, .ok s')) : s' = s := by
  unfold xmpp_presence_unavailable at h
  repeat' split at h
  all_goals simp only [Prod.mk.injEq, Except.ok.injEq, reduceCtorEq, and_false,
    false_and] at h
  all_goals exact h.2.symm

theorem matrix_all_chat_message_state (s : BotState) (room : MatrixRoom) (ev : MEvent)
    (as : List Act) (s' : BotState)
    (h : matrix_all_chat_message s room ev = (as, .ok s')) : s' = s := by
  unfold matrix_all_chat_message at h
  repeat' split at h
  all_goals simp only [Prod.mk.injEq, Except.ok.injEq, reduceCtorEq, and_false,
    false_and] at h
  all_goals exact h.2.symm

theorem roomLeave_shape (s : BotState) (rid : Nat) (s' : BotState)
    (h : roomLeave s rid = .ok s') : ∃ R, s' = { s with rooms := R } := by
  unfold roomLeave at h
  split at h
  · exact ⟨_, (Except.ok.inj h).symm⟩
  · exact absurd h (by simp)

theorem purgeLoop_shape (rs : List MatrixRoom) :
    ∀ (s : BotState) (as : List Act) (s' : BotState),
      purgeLoop s rs = (as, .ok s') → ∃ R, s' = { s with rooms := R } := by
  induction rs with
  | nil =>
    intro s as s' h
    simp only [purgeLoop, Prod.mk.injEq, Except.ok.injEq] at h
    exact ⟨s.rooms, h.2.symm⟩
  | cons r rest ih =>
    intro s as s' h
    unfold purgeLoop at h
    cases ht : r.topic with
    | none => rw [ht] at h; simp at h
    | some t =>
      rw [ht] at h
      dsimp only at h
      cases hlv : roomLeave s r.room_id with
      | error e => rw [hlv] at h; simp at h
      | ok s1 =>
        rw [hlv] at h
        dsimp only at h
        cases hrec : purgeLoop s1 rest with
        | mk as2 res2 =>
          rw [hrec] at h
          simp only [Prod.mk.injEq] at h
          cases res2 with
          | error e => simp at h
          | ok sf =>
            have hsf : sf = s' := by simpa using h.2
            subst hsf
            obtain ⟨R1, hR1⟩ := roomLeave_shape s r.room_id s1 hlv
            obtain ⟨R2, hR2⟩ := ih s1 as2 sf hrec
            subst hR1
            exact ⟨R2, hR2⟩

theorem create_groupchat_room_shape (s : BotState) (jid : String)
    (as : List Act) (s' : BotState)
    (h : create_groupchat_room s jid = (as, .ok s')) :
    ∃ R M G, s' = { s with rooms := R, topicRoomIdMap := M, groupchatJids := G } := by
  unfold create_groupchat_room at h
  cases hcm : create_mapped_room s (s.groupchatFlag ++ jid) none with
  | mk as1 res1 =>
    rw [hcm] at h
    cases res1 with
    | error e => simp at h
    | ok pr =>
      obtain ⟨s1, o⟩ := pr
      obtain ⟨R, M, hshape⟩ := cm_ok_shape s (s.groupchatFlag ++ jid) none as1 s1 o hcm
      dsimp only at h
      subst hshape
      split at h
      all_goals (repeat' split at h)
      all_goals simp only [Prod.mk.injEq, Except.ok.injEq, reduceCtorEq, and_false,
        false_and] at h
      all_goals exact ⟨R, M, _, h.2.symm⟩

theorem matrix_control_message_shape (s : BotState) (ev : MEvent)
    (as : List Act) (s' : BotState)
    (h : matrix_control_message s ev = (as, .ok s')) :
    ∃ R M G, s' = { s with rooms := R, topicRoomIdMap := M, groupchatJids := G } := by
  have base : ∃ R M G,
      s = { s with rooms := R, topicRoomIdMap := M, groupchatJids := G } :=
    ⟨s.rooms, s.topicRoomIdMap, s.groupchatJids, rfl⟩
  unfold matrix_control_message at h
  by_cases h1 : (ev.sender == s.botId) = true
  · rw [if_pos h1] at h
    simp only [Prod.mk.injEq, Except.ok.injEq] at h
    obtain ⟨-, h2⟩ := h
    subst h2
    exact base
  · rw [if_neg h1] at h
    by_cases h2m : (ev.msgtype == "m.text") = true
    · rw [if_pos h2m] at h
      cases hsp : pySplit ev.body with
      | nil =>
        rw [hsp] at h
        simp only [Prod.mk.injEq, Except.ok.injEq] at h
        obtain ⟨-, h2⟩ := h
        subst h2
        exact base
      | cons p0 rest =>
        rw [hsp] at h
        dsimp only at h
        by_cases hr : (lowerStr p0 == "refresh") = true
        · rw [if_pos hr] at h
          simp only [Prod.mk.injEq, Except.ok.injEq] at h
          obtain ⟨-, h2⟩ := h
          subst h2
          exact base
        · rw [if_neg hr] at h
          by_cases hpu : (lowerStr p0 == "purge") = true
          · rw [if_pos hpu] at h
            cases hctrl : lookupA s.specialRooms "control" with
            | none => rw [hctrl] at h; simp at h
            | some crid =>
              rw [hctrl] at h
              dsimp only at h
              cases hp : purgeLoop s (get_unmapped_rooms s ++ get_empty_rooms s) with
              | mk asP resP =>
                rw [hp] at h
                simp only [Prod.mk.injEq] at h
                cases resP with
                | error e => simp at h
                | ok sf =>
                  have hsf : sf = s' := by simpa using h.2
                  subst hsf
                  obtain ⟨R, hR⟩ := purgeLoop_shape _ s asP sf hp
                  exact ⟨R, s.topicRoomIdMap, s.groupchatJids, hR⟩
          · rw [if_neg hpu] at h
            cases rest with
            | nil =>
              simp only [Prod.mk.injEq, Except.ok.injEq] at h
              obtain ⟨-, h2⟩ := h
              subst h2
              exact base
            | cons a1 r2 =>
              dsimp only at h
              by_cases hj : (lowerStr p0 == "joinmuc") = true
              · rw [if_pos hj] at h
                cases hcg : create_groupchat_room s a1 with
                | mk asJ resJ =>
                  rw [hcg] at h
                  cases resJ with
                  | error e => simp at h
                  | ok sJ =>
                    dsimp only at h
                    simp only [Prod.mk.injEq, Except.ok.injEq] at h
                    obtain ⟨-, h2⟩ := h
                    subst h2
                    exact create_groupchat_room_shape s a1 asJ _ hcg
              · rw [if_neg hj] at h
                by_cases hl : (lowerStr p0 == "leavemuc") = true
                · rw [if_pos hl] at h
                  cases hgr : get_room_for_jid s (s.groupchatFlag ++ a1) with
                  | error e => rw [hgr] at h; simp at h
                  | ok rid =>
                    rw [hgr] at h
                    dsimp only at h
                    cases hlv : roomLeave s rid with
                    | error e => rw [hlv] at h; simp at h
                    | ok sL =>
                      rw [hlv] at h
                      simp only [Prod.mk.injEq, Except.ok.injEq] at h
                      obtain ⟨-, h2⟩ := h
                      subst h2
                      obtain ⟨R, hR⟩ := roomLeave_shape s rid _ hlv
                      exact ⟨R, s.topicRoomIdMap, s.groupchatJids, hR⟩
                · rw [if_neg hl] at h
                  simp only [Prod.mk.injEq, Except.ok.injEq] at h
                  obtain ⟨-, h2⟩ := h
                  subst h2
                  exact base
    · rw [if_neg h2m] at h
      simp only [Prod.mk.injEq, Except.ok.injEq] at h
      obtain ⟨-, h2⟩ := h
      subst h2
      exact base

theorem rosterCreateFold_shape (entries : List (String × String)) :
    ∀ (s : BotState) (as : List Act) (s' : BotState),
      rosterCreateFold s entries = (as, .ok s') →
      ∃ R M J, s' = { s with rooms := R, topicRoomIdMap := M, jidNickMap := J } := by
  induction entries with
  | nil =>
    intro s as s' h
    simp only [rosterCreateFold, Prod.mk.injEq, Except.ok.injEq] at h
    obtain ⟨-, h2⟩ := h
    subst h2
    exact ⟨s.rooms, s.topicRoomIdMap, s.jidNickMap, rfl⟩
  | cons hd rest ih =>
    intro s as s' h
    obtain ⟨jid, nm⟩ := hd
    by_cases hat : strHasChar jid '@'
    · by_cases hdisb : s.disabledJids.contains jid = true
      · simp only [rosterCreateFold, hat, Bool.not_true, Bool.false_eq_true, if_false,
          hdisb, if_true] at h
        exact ih s as s' h
      · rw [Bool.not_eq_true] at hdisb
        have hstep : rosterCreateFold s ((jid, nm) :: rest) =
            (match create_mapped_room { s with jidNickMap := updateA s.jidNickMap jid nm }
                jid (some nm) with
             | (as1, .error e) => (as1, .error e)
             | (as1, .ok (s2, _)) =>
               let p := rosterCreateFold s2 rest
               (as1 ++ p.1, p.2)) := by
          simp only [rosterCreateFold, hat, Bool.not_true, Bool.false_eq_true, if_false,
            hdisb, if_true]
        rw [hstep] at h
        cases hcm : create_mapped_room { s with jidNickMap := updateA s.jidNickMap jid nm }
            jid (some nm) with
        | mk as1 res1 =>
          rw [hcm] at h
          cases res1 with
          | error e => simp at h
          | ok pr =>
            obtain ⟨s2, o⟩ := pr
            dsimp only at h
            cases hfold : rosterCreateFold s2 rest with
            | mk A2 res2 =>
              rw [hfold] at h
              simp only [Prod.mk.injEq] at h
              cases res2 with
              | error e => exact absurd h.2 (by simp)
              | ok sf =>
                have hsf : sf = s' := by simpa using h.2
                subst hsf
                obtain ⟨R1, M1, hshape1⟩ :=
                  cm_ok_shape _ jid (some nm) as1 s2 o hcm
                obtain ⟨R2, M2, J2, hshape2⟩ := ih s2 A2 sf hfold
                subst hshape1
                exact ⟨R2, M2, J2, hshape2⟩
    · simp only [rosterCreateFold, hat, Bool.not_false, if_true] at h
      exact ih s as s' h

theorem xmpp_roster_update_shape (roster : List (String × List (String × String)))
    (s : BotState) (as : List Act) (s' : BotState)
    (h : xmpp_roster_update roster s = (as, .ok s')) :
    ∃ R M J D,
      s' = { s with rooms := R, topicRoomIdMap := M, jidNickMap := J, rosterDict := D } := by
  unfold xmpp_roster_update at h
  match roster with
  | [] => simp at h
  | [(rj, entries)] =>
    dsimp only at h
    cases hcf : rosterCreateFold
        (map_rooms_by_topic { s with rosterDict := entries }).1 entries with
    | mk asC res1 =>
      rw [hcf] at h
      cases res1 with
      | error e => simp at h
      | ok s2 =>
        dsimp only at h
        simp only [Prod.mk.injEq, Except.ok.injEq] at h
        obtain ⟨-, h2⟩ := h
        subst h2
        obtain ⟨M1, hM1⟩ := map_rooms_by_topic_shape { s with rosterDict := entries }
        rw [hM1] at hcf
        obtain ⟨R2, M2, J2, hshape2⟩ := rosterCreateFold_shape entries _ asC s2 hcf
        exact ⟨R2, M2, J2, entries, hshape2⟩
  | (a :: b :: rest) => simp at h

theorem initScan_keys (flag : String) (rs : List MatrixRoom) :
    ∀ (sp : List (String × Option Nat)) (gc : List String) sp' gc',
      initScan flag rs sp gc = .ok (sp', gc') → sp'.map (·.1) = sp.map (·.1) := by
  induction rs with
  | nil =>
    intro sp gc sp' gc' h
    simp only [initScan, Except.ok.injEq, Prod.mk.injEq] at h
    rw [← h.1]
  | cons r rest ih =>
    intro sp gc sp' gc' h
    unfold initScan at h
    cases ht : r.topic with
    | none => rw [ht] at h; simp at h
    | some t =>
      rw [ht] at h
      dsimp only at h
      by_cases hk : ((sp.map (·.1)).contains t) = true
      · rw [if_pos hk] at h
        have := ih _ _ _ _ h
        rw [this, updateA_keys_of_contains _ _ _ hk]
      · rw [if_neg hk] at h
        by_cases hs : strStarts t flag = true
        · rw [if_pos hs] at h
          exact ih _ _ _ _ h
        · rw [if_neg hs] at h
          exact ih _ _ _ _ h

theorem keys_singleton {β : Type} (l : List (String × β)) (k : String)
    (h : l.map (·.1) = [k]) : ∃ x, l = [(k, x)] := by
  cases l with
  | nil => simp at h
  | cons kv rest =>
    cases rest with
    | nil =>
      simp only [List.map_cons, List.map_nil, List.cons.injEq, and_true] at h
      exact ⟨kv.2, by rw [← h]⟩
    | cons kv2 r2 => simp at h

theorem ensure_control_some (b : String) (rid : Nat) (rooms : List MatrixRoom) :
    ensureSpecialLoop [("control", "XMPP Control Room")] b [("control", some rid)] rooms [] =
      .ok (setNameL (setTopicL rooms rid "control") rid "XMPP Control Room",
        [("control", rid)],
        [Act.setRoomTopic rid "control", Act.setRoomName rid "XMPP Control Room"]) := rfl

theorem ensure_control_none (b : String) (rooms : List MatrixRoom) :
    ensureSpecialLoop [("control", "XMPP Control Room")] b [("control", none)] rooms [] =
      .ok (setNameL (setTopicL
            (rooms ++ [⟨freshFrom (rooms.map (·.room_id) ++ ([] : List (String × Nat)).map (·.2)),
              none, none, [b]⟩])
            (freshFrom (rooms.map (·.room_id) ++ ([] : List (String × Nat)).map (·.2))) "control")
          (freshFrom (rooms.map (·.room_id) ++ ([] : List (String × Nat)).map (·.2)))
          "XMPP Control Room",
        [("control", freshFrom (rooms.map (·.room_id) ++ ([] : List (String × Nat)).map (·.2)))],
        [Act.createRoom (freshFrom (rooms.map (·.room_id) ++ ([] : List (String × Nat)).map (·.2))),
         Act.setRoomTopic (freshFrom (rooms.map (·.room_id) ++ ([] : List (String × Nat)).map (·.2))) "control",
         Act.setRoomName (freshFrom (rooms.map (·.room_id) ++ ([] : List (String × Nat)).map (·.2))) "XMPP Control Room"]) := rfl

theorem initListenInvite_disabled (rid : Nat) (invitees gc : List String) (nick : String) :
    ∃ acts, initListenInvite true [("control", rid)] invitees gc nick = .ok acts ∧
      ∀ a ∈ acts, (∀ r k, a = Act.addListener r k → k = ListenerKind.control) ∧
        (∀ r t, a ≠ Act.setRoomTopic r t) := by
  refine ⟨_, rfl, ?_⟩
  intro a ha
  simp only [List.mem_append] at ha
  rcases ha with (ha | ha) | ha
  · have : a = Act.addListener rid ListenerKind.control := by simpa using ha
    subst this
    constructor
    · intro r k hk
      injection hk with h1 h2
      exact h2.symm
    · intro r t hcon
      exact Act.noConfusion hcon
  · simp only [List.flatMap_cons, List.flatMap_nil, List.append_nil, List.mem_map] at ha
    obtain ⟨u, -, hu⟩ := ha
    subst hu
    exact ⟨fun r k hk => Act.noConfusion hk, fun r t hk => Act.noConfusion hk⟩
  · simp only [List.mem_map] at ha
    obtain ⟨j, -, hj⟩ := ha
    subst hj
    exact ⟨fun r k hk => Act.noConfusion hk, fun r t hk => Act.noConfusion hk⟩

theorem xmpp_message_sends (s : BotState) (m : XMessage) (as : List Act)
    (r : Except PyErr BotState)
    (hflag : s.sendMessagesToAllChat = false)
    (h : xmpp_message s m = (as, r)) :
    ∀ a ∈ as, ∃ rid, get_room_for_jid s m.fromBare = .ok rid ∧
      a = Act.sendText rid m.body := by
  unfold xmpp_message at h
  by_cases h1 : (m.mtype == "normal" || m.mtype == "chat") = true
  · rw [if_pos h1] at h
    cases hnm : lookupA s.jidNickMap m.fromBare with
    | none =>
      rw [hnm] at h
      simp only [Prod.mk.injEq] at h
      intro a ha
      rw [← h.1] at ha
      simp at ha
    | some nm =>
      rw [hnm] at h
      dsimp only at h
      by_cases hgc : s.groupchatJids.contains m.fromBare = true
      · rw [if_pos hgc] at h
        simp only [Prod.mk.injEq] at h
        intro a ha
        rw [← h.1] at ha
        simp at ha
      · rw [if_neg hgc] at h
        cases hgr : get_room_for_jid s m.fromBare with
        | error e =>
          rw [hgr] at h
          simp only [Prod.mk.injEq] at h
          intro a ha
          rw [← h.1] at ha
          simp at ha
        | ok rid =>
          rw [hgr] at h
          dsimp only at h
          rw [hflag] at h
          simp only [Bool.false_eq_true, if_false, Prod.mk.injEq] at h
          intro a ha
          rw [← h.1] at ha
          simp only [List.mem_singleton] at ha
          exact ⟨rid, rfl, ha⟩
  · rw [if_neg h1] at h
    simp only [Prod.mk.injEq] at h
    intro a ha
    rw [← h.1] at ha
    simp at ha

theorem xmpp_groupchat_message_sends (s : BotState) (m : XMessage) (as : List Act)
    (r : Except PyErr BotState)
    (hflag : s.sendMessagesToAllChat = false)
    (h : xmpp_groupchat_message s m = (as, r)) :
    ∀ a ∈ as, ∃ rid, get_room_for_jid s (s.groupchatFlag ++ m.fromBare) = .ok rid ∧
      a = Act.sendText rid (m.mucnick ++ ": " ++ m.body) := by
  unfold xmpp_groupchat_message at h
  by_cases h1 : (m.mtype == "groupchat") = true
  · rw [if_pos h1] at h
    by_cases h2 : (s.groupchatMuteOwnNick && m.mucnick == s.xmppGroupchatNick) = true
    · rw [if_pos h2] at h
      simp only [Prod.mk.injEq] at h
      intro a ha
      rw [← h.1] at ha
      simp at ha
    · rw [if_neg h2] at h
      cases hgr : get_room_for_jid s (s.groupchatFlag ++ m.fromBare) with
      | error e =>
        rw [hgr] at h
        simp only [Prod.mk.injEq] at h
        intro a ha
        rw [← h.1] at ha
        simp at ha
      | ok rid =>
        rw [hgr] at h
        dsimp only at h
        rw [hflag] at h
        simp only [Bool.false_eq_true, if_false, Prod.mk.injEq] at h
        intro a ha
        rw [← h.1] at ha
        simp only [List.mem_singleton] at ha
        exact ⟨rid, rfl, ha⟩
  · rw [if_neg h1] at h
    simp only [Prod.mk.injEq] at h
    intro a ha
    rw [← h.1] at ha
    simp at ha

theorem matrix_message_send_sends (s : BotState) (jid mtype body : String)
    (as : List Act) (r : Except PyErr BotState)
    (hflag : s.sendMessagesToAllChat = false)
    (h : matrix_message_send s jid mtype body = (as, r)) :
    ∀ a ∈ as, a = Act.xmppSendMessage jid body mtype := by
  unfold matrix_message_send at h
  cases hnm : lookupA s.jidNickMap jid with
  | none =>
    rw [hnm] at h
    simp only [Prod.mk.injEq] at h
    intro a ha
    rw [← h.1] at ha
    simp at ha
  | some nm =>
    rw [hnm] at h
    dsimp only at h
    rw [hflag] at h
    simp only [Bool.false_eq_true, if_false, Prod.mk.injEq] at h
    intro a ha
    rw [← h.1] at ha
    simpa using ha

theorem matrix_message_no_room_send (s : BotState) (room : MatrixRoom) (ev : MEvent)
    (as : List Act) (r : Except PyErr BotState)
    (hflag : s.sendMessagesToAllChat = false)
    (h : matrix_message s room ev = (as, r)) :
    ∀ a ∈ as, ∀ rid b, a ≠ Act.sendText rid b ∧ a ≠ Act.sendNotice rid b := by
  unfold matrix_message at h
  by_cases h1 : (ev.sender == s.botId) = true
  · rw [if_pos h1] at h
    simp only [Prod.mk.injEq] at h
    intro a ha
    rw [← h.1] at ha
    simp at ha
  · rw [if_neg h1] at h
    by_cases h2 : (ev.msgtype == "m.text") = true
    · rw [if_pos h2] at h
      cases ht : room.topic with
      | none =>
        rw [ht] at h
        simp only [Prod.mk.injEq] at h
        intro a ha
        rw [← h.1] at ha
        simp at ha
      | some t =>
        rw [ht] at h
        dsimp only at h
        intro a ha
        have hsend : a = Act.xmppSendMessage
            (if strStarts t s.groupchatFlag then strDrop t (strLen s.groupchatFlag) else t)
            ev.body (if strStarts t s.groupchatFlag then "groupchat" else "chat") := by
          by_cases hs : strStarts t s.groupchatFlag = true
          · rw [if_pos hs] at h
            simp only [hs, if_true]
            exact matrix_message_send_sends s _ _ _ as r hflag h a ha
          · rw [if_neg hs] at h
            simp only [hs, Bool.false_eq_true, if_false]
            exact matrix_message_send_sends s _ _ _ as r hflag h a ha
        subst hsend
        exact fun rid b => ⟨fun hc => Act.noConfusion hc, fun hc => Act.noConfusion hc⟩
    · rw [if_neg h2] at h
      simp only [Prod.mk.injEq] at h
      intro a ha
      rw [← h.1] at ha
      simp at ha

/-- Claim C9, amended: when the configuration disables the all-chat room
and does not enable mirroring (the only combination in which load_config
honours the disable flag), initialization registers no all-chat room, sets
no all-chat topic, adds no all-chat listener, and leaves
`send_messages_to_all_chat` false; every handler preserves the mirroring
flag and the special-room registry, no action can post to an unregistered
all-chat room, and with mirroring off the message handlers send only to
mapped rooms (or only to XMPP for the Matrix-to-XMPP direction). -/
theorem claim9_all_chat_disabled_amended
    (c : Config) (existing : List MatrixRoom) (A0 : List Act) (st : BotState)
    (hd : c.disableAllChatRoom = some true)
    (hm : c.sendMessagesToAllChat = false)
    (hinit : bridgeInit c existing = (A0, .ok st)) :
    st.sendMessagesToAllChat = false ∧
    st.disableAllChatRoom = true ∧
    lookupA st.specialRooms "all_chat" = none ∧
    (∀ rid t, Act.setRoomTopic rid t ∈ A0 → t = "control") ∧
    (∀ rid, Act.addListener rid ListenerKind.allChat ∉ A0) ∧
    (∀ s ev as s', matrix_control_message s ev = (as, Except.ok s') →
      s'.sendMessagesToAllChat = s.sendMessagesToAllChat ∧
      s'.specialRooms = s.specialRooms) ∧
    (∀ roster s as s', xmpp_roster_update roster s = (as, Except.ok s') →
      s'.sendMessagesToAllChat = s.sendMessagesToAllChat ∧
      s'.specialRooms = s.specialRooms) ∧
    (∀ s room ev as s', matrix_message s room ev = (as, Except.ok s') → s' = s) ∧
    (∀ s m as s', xmpp_message s m = (as, Except.ok s') → s' = s) ∧
    (∀ s m as s', xmpp_groupchat_message s m = (as, Except.ok s') → s' = s) ∧
    (∀ s j as s', xmpp_presence_available s j = (as, Except.ok s') → s' = s) ∧
    (∀ s j as s', xmpp_presence_unavailable s j = (as, Except.ok s') → s' = s) ∧
    (∀ s a, lookupA s.specialRooms "all_chat" = none → ¬ postsToAllChat s a) ∧
    (∀ s m as r, s.sendMessagesToAllChat = false → xmpp_message s m = (as, r) →
      ∀ a ∈ as, ∃ rid, get_room_for_jid s m.fromBare = Except.ok rid ∧
        a = Act.sendText rid m.body) ∧
    (∀ s m as r, s.sendMessagesToAllChat = false → xmpp_groupchat_message s m = (as, r) →
      ∀ a ∈ as, ∃ rid, get_room_for_jid s (s.groupchatFlag ++ m.fromBare) = Except.ok rid ∧
        a = Act.sendText rid (m.mucnick ++ ": " ++ m.body)) ∧
    (∀ s room ev as r, s.sendMessagesToAllChat = false → matrix_message s room ev = (as, r) →
      ∀ a ∈ as, ∀ rid b, a ≠ Act.sendText rid b ∧ a ≠ Act.sendNotice rid b) := by
  have hdis : loadDisableAllChat c = true := by
    simp [loadDisableAllChat, hm, hd]
  -- reduce the initialization under the disable flag
  unfold bridgeInit at hinit
  rw [hdis] at hinit
  simp only [initialSpecial, specialNames, reduceIte] at hinit
  have hinitFacts :
      st.sendMessagesToAllChat = false ∧ st.disableAllChatRoom = true ∧
      lookupA st.specialRooms "all_chat" = none ∧
      (∀ rid t, Act.setRoomTopic rid t ∈ A0 → t = "control") ∧
      (∀ rid, Act.addListener rid ListenerKind.allChat ∉ A0) := by
    cases hscan : initScan c.groupchatFlag existing [("control", none)] [] with
    | error e => rw [hscan] at hinit; simp at hinit
    | ok pr =>
      obtain ⟨sp, gc⟩ := pr
      rw [hscan] at hinit
      dsimp only at hinit
      have hkeys : sp.map (·.1) = ["control"] := by
        simpa using initScan_keys c.groupchatFlag existing _ _ _ _ hscan
      obtain ⟨x, hx⟩ := keys_singleton sp "control" hkeys
      subst hx
      cases x with
      | some rid =>
        rw [ensure_control_some c.botId rid existing] at hinit
        dsimp only at hinit
        obtain ⟨acts, hli, hprop⟩ :=
          initListenInvite_disabled rid c.usersToInvite gc c.xmppGroupchatNick
        rw [hli] at hinit
        dsimp only at hinit
        simp only [Prod.mk.injEq, Except.ok.injEq] at hinit
        obtain ⟨hA0, hst⟩ := hinit
        subst hst
        refine ⟨rfl, rfl, by simp [lookupA, lookupA_cons], ?_, ?_⟩
        · intro rid2 t hmem2
          rw [← hA0] at hmem2
          rcases List.mem_append.mp hmem2 with hmem2 | hmem2
          · simp only [List.mem_cons, List.not_mem_nil, or_false] at hmem2
            rcases hmem2 with hmem2 | hmem2
            · injection hmem2 with e1 e2
            · exact Act.noConfusion hmem2
          · exact ((hprop _ hmem2).2 rid2 t rfl).elim
        · intro rid2 hmem2
          rw [← hA0] at hmem2
          rcases List.mem_append.mp hmem2 with hmem2 | hmem2
          · simp only [List.mem_cons, List.not_mem_nil, or_false] at hmem2
            rcases hmem2 with hmem2 | hmem2
            · exact Act.noConfusion hmem2
            · exact Act.noConfusion hmem2
          · exact ListenerKind.noConfusion ((hprop _ hmem2).1 rid2 ListenerKind.allChat rfl)
      | none =>
        rw [ensure_control_none c.botId existing] at hinit
        dsimp only at hinit
        obtain ⟨acts, hli, hprop⟩ :=
          initListenInvite_disabled _ c.usersToInvite gc c.xmppGroupchatNick
        rw [hli] at hinit
        dsimp only at hinit
        simp only [Prod.mk.injEq, Except.ok.injEq] at hinit
        obtain ⟨hA0, hst⟩ := hinit
        subst hst
        refine ⟨rfl, rfl, by simp [lookupA, lookupA_cons], ?_, ?_⟩
        · intro rid2 t hmem2
          rw [← hA0] at hmem2
          rcases List.mem_append.mp hmem2 with hmem2 | hmem2
          · simp only [List.mem_cons, List.not_mem_nil, or_false] at hmem2
            rcases hmem2 with hmem2 | hmem2 | hmem2
            · exact Act.noConfusion hmem2
            · injection hmem2 with e1 e2
            · exact Act.noConfusion hmem2
          · exact ((hprop _ hmem2).2 rid2 t rfl).elim
        · intro rid2 hmem2
          rw [← hA0] at hmem2
          rcases List.mem_append.mp hmem2 with hmem2 | hmem2
          · simp only [List.mem_cons, List.not_mem_nil, or_false] at hmem2
            rcases hmem2 with hmem2 | hmem2 | hmem2
            · exact Act.noConfusion hmem2
            · exact Act.noConfusion hmem2
            · exact Act.noConfusion hmem2
          · exact ListenerKind.noConfusion ((hprop _ hmem2).1 rid2 ListenerKind.allChat rfl)
  obtain ⟨hf1, hf2, hf3, hf4, hf5⟩ := hinitFacts
  refine ⟨hf1, hf2, hf3, hf4, hf5, ?_, ?_, ?_, ?_, ?_, ?_, ?_, ?_, ?_, ?_, ?_⟩
  · intro s ev as s' h
    obtain ⟨R, M, G, hs⟩ := matrix_control_message_shape s ev as s' h
    rw [hs]
    exact ⟨rfl, rfl⟩
  · intro roster s as s' h
    obtain ⟨R, M, J, D, hs⟩ := xmpp_roster_update_shape roster s as s' h
    rw [hs]
    exact ⟨rfl, rfl⟩
  · exact fun s room ev as s' h => matrix_message_state s room ev as s' h
  · exact fun s m as s' h => xmpp_message_state s m as s' h
  · exact fun s m as s' h => xmpp_groupchat_message_state s m as s' h
  · exact fun s j as s' h => xmpp_presence_available_state s j as s' h
  · exact fun s j as s' h => xmpp_presence_unavailable_state s j as s' h
  · intro s a hnone hpost
    obtain ⟨rid, b, hlook, -⟩ := hpost
    rw [hnone] at hlook
    exact Option.noConfusion hlook
  · exact fun s m as r hflag h => xmpp_message_sends s m as r hflag h
  · exact fun s m as r hflag h => xmpp_groupchat_message_sends s m as r hflag h
  · exact fun s room ev as r hflag h => matrix_message_no_room_send s room ev as r hflag h

/-- Claim C9, counterexample.  A configuration with
`disable_all_chat_room: true` and `send_messages_to_all_chat: true`: the
disable flag is discarded by load_config (lines 142-145), the all-chat room
is created, registered and listened to, and mirroring stays enabled —
refuting the claim for configurations that simultaneously enable
mirroring. -/
theorem claim9_counterexample_disable_ignored :
    (bridgeInit c9badCfg []).2.map (fun st =>
      (st.sendMessagesToAllChat, st.disableAllChatRoom, lookupA st.specialRooms "all_chat"))
      = Except.ok (true, false, some 2) ∧
    Act.setRoomTopic 2 "all_chat" ∈ (bridgeInit c9badCfg []).1 ∧
    Act.addListener 2 ListenerKind.allChat ∈ (bridgeInit c9badCfg []).1 := by
  refine ⟨rfl, ?_, ?_⟩ <;> decide

/-- Claim C9, witness: the amended theorem applied to a concrete disabling
configuration. -/
theorem claim9_all_chat_disabled_amended_witness :
    ∃ A0 st, bridgeInit c9goodCfg [] = (A0, Except.ok st) ∧
      st.sendMessagesToAllChat = false ∧
      lookupA st.specialRooms "all_chat" = none ∧
      (∀ rid, Act.addListener rid ListenerKind.allChat ∉ A0) := by
  refine ⟨_, _, rfl, ?_⟩
  have h := claim9_all_chat_disabled_amended c9goodCfg [] _ _ rfl rfl rfl
  exact ⟨h.1, h.2.2.1, h.2.2.2.2.1⟩
